import Mathlib

/-!
Shallow embedding of `cryocare/internals/CryoCAREDataModule.py`
(`CryoCARE_Dataset` and `CryoCARE_DataModule`) and proofs about it.

Modelling conventions:
* numpy memory-mapped volumes become a `Tomo` structure carrying the
  3-D shape and a total value function;
* the filesystem becomes an `Env` mapping paths to volumes / masks;
* all randomness (`np.random.choice`, `np.random.permutation`, the
  augmentation coin) is threaded explicitly through an `Rng` record, so
  every definition is a pure function of its inputs and the random
  source;
* Python float arithmetic on fractions such as `validation_fraction`
  is modelled with exact rationals (`ℚ`); every concrete input used in
  a theorem below is exactly representable in binary floating point,
  so the modelled values coincide with the values the program computes;
* fallible Python code (missing files, failed `assert`s, exceptions
  raised by `np.random.choice` or out-of-range indexing) is modelled
  with `Except String`.
-/

/-- A patch footprint / `sample_shape`: a fixed 3-D shape. -/
structure Shape3 where
  s0 : ℕ
  s1 : ℕ
  s2 : ℕ
deriving DecidableEq, Repr, Inhabited

/-- An extraction window `[[y0, y1], [x0, x1]]` over the first two axes of a
volume, as produced by `__compute_extraction_shapes__` and consumed by
`create_random_coords`. -/
structure Window where
  y : ℕ × ℕ
  x : ℕ × ℕ
deriving DecidableEq, Repr, Inhabited

/-- A memory-mapped tomogram: its 3-D shape and its voxel values
(`mrcfile.mmap(p).data`). -/
structure Tomo where
  d0 : ℕ
  d1 : ℕ
  d2 : ℕ
  data : ℕ → ℕ → ℕ → ℚ
deriving Inhabited

/-- The shape triple of a tomogram (`handle.data.shape`). -/
def Tomo.shape (t : Tomo) : ℕ × ℕ × ℕ := (t.d0, t.d1, t.d2)

/-- The split axis tag (`tilt_axis`), one of the strings `"Y"`/`"X"` in the
source. -/
inductive Axis where
  | Y : Axis
  | X : Axis
deriving DecidableEq, Repr, Inhabited

/-- `["Y", "X"].index(tilt_axis)` from `CryoCARE_Dataset.__init__` and
`CryoCARE_DataModule.setup`. -/
def Axis.index : Axis → ℕ
  | .Y => 0
  | .X => 1

/-- A validity mask as the source handles it: a 3-D boolean volume with its
shape (`np.ones(even.data.shape)` when no mask file is given, otherwise the
array read from the mask file). -/
structure Mask where
  d0 : ℕ
  d1 : ℕ
  d2 : ℕ
  val : ℕ → ℕ → ℕ → Bool

/-- The shape triple of a mask volume (`mask.shape`). -/
def Mask.shape (m : Mask) : ℕ × ℕ × ℕ := (m.d0, m.d1, m.d2)

/-- The candidate cells of `create_random_coords`: the mask restricted to
`mask[y0 : y1 - sample_shape[1], x0 : x1 - sample_shape[0]]` (note the
source subtracts `sample_shape[1]` from the *y* extent and `sample_shape[0]`
from the *x* extent).  The slice tuple has only two entries, so the mask's
third axis is left unsliced; `np.where` therefore returns three index
arrays enumerating the true cells of that 3-D region in row-major order.
Slice ends are clamped to the mask's shape as numpy's basic slicing does,
and the first two index arrays are offset back by the slice starts. -/
def validInds (s : Shape3) (y x : ℕ × ℕ) (mask : Mask) : List (ℕ × ℕ × ℕ) :=
  (List.range' y.1 (min (y.2 - s.s1) mask.d0 - y.1)).flatMap fun i =>
    (List.range' x.1 (min (x.2 - s.s0) mask.d1 - x.1)).flatMap fun j =>
      (List.range mask.d2).filterMap fun k =>
        if mask.val i j k then some (i, j, k) else none

/-- Draws `k` elements from `pool` without replacement: each step removes the
element at position `rng step % pool.length`.  This models the
`replace=False` branch of `np.random.choice` with the random source made
explicit. -/
def drawWithoutReplacement (rng : ℕ → ℕ) : ℕ → ℕ → List ℕ → List ℕ
  | _, 0, _ => []
  | step, k + 1, pool =>
    pool.getD (rng step % pool.length) 0 ::
      drawWithoutReplacement rng (step + 1) k (pool.eraseIdx (rng step % pool.length))

/-- Draws `n` elements with replacement: `rng i % popSize` for each slot.
This models the `replace=True` branch of `np.random.choice`. -/
def drawWithReplacement (rng : ℕ → ℕ) (popSize n : ℕ) : List ℕ :=
  (List.range n).map fun i => rng i % popSize

/-- `CryoCARE_Dataset.create_random_coords(y, x, mask, n_samples)`.
The candidate set is `validInds`, the true cells of the 3-D restricted
mask; `np.random.choice(len(valid_inds[0]), n, replace=len < n)` counts
those 3-D cells and raises when the population is empty while at least one
sample is requested, which we model as `Except.error`.  The source's
`zip(slices, valid_inds)` truncates the three index arrays to the first
two, so each drawn cell is returned as its `(y, x)` projection — distinct
drawn cells can yield duplicate coordinate pairs. -/
def create_random_coords (s : Shape3) (y x : ℕ × ℕ) (mask : Mask)
    (n : ℕ) (rng : ℕ → ℕ) : Except String (List (ℕ × ℕ)) :=
  let cands := validInds s y x mask
  if cands.length = 0 ∧ 0 < n then
    .error "a must be greater than 0 unless no samples are taken"
  else
    let inds := if cands.length < n
      then drawWithReplacement rng cands.length n
      else drawWithoutReplacement rng 0 n (List.range cands.length)
    .ok (inds.map fun i =>
      ((cands.getD i (0, 0, 0)).1, (cands.getD i (0, 0, 0)).2.1))

/-- Truncating conversion of a rational to an integer, as Python's `int()`
(round toward zero). -/
def pyInt (q : ℚ) : ℤ := if 0 ≤ q then ⌊q⌋ else -⌊-q⌋

/-- A patch returned by `__getitem__`: its numpy shape (a list of axis
lengths, with the trailing `1` added by `[..., np.newaxis]`) and its voxel
values. -/
structure Patch where
  shape : List ℕ
  data : ℕ → ℕ → ℕ → ℚ
deriving Inhabited

/-- Length of the numpy basic slice `a[start : start + len]` over an axis of
size `bound` (out-of-range slice ends are clamped, never an error). -/
def npLen (start len bound : ℕ) : ℕ := min (start + len) bound - min start bound

/-- The sub-volume read `tomo.data[y : y + sample_shape[0], x : x + sample_shape[1]]`
followed by `[..., np.newaxis]`.  Only the first two axes are sliced in the
source, so the third axis keeps the tomogram's full extent `d2`. -/
def extractPatch (t : Tomo) (y x : ℕ) (s : Shape3) : Patch :=
  { shape := [npLen y s.s0 t.d0, npLen x s.s1 t.d1, t.d2, 1],
    data := fun i j k => t.data (min y t.d0 + i) (min x t.d1 + j) k }

/-- `CryoCARE_Dataset.augment(x, y)`: with the (explicit) coin it returns the
pair swapped, otherwise unchanged.  The rotation branch is dead code in the
source. -/
def augment (coin : Bool) (x y : Patch) : Patch × Patch :=
  if coin then (y, x) else (x, y)

/-- The explicit random source standing for numpy's global random state:
`choice k` is the draw stream consumed by `np.random.choice` for the `k`-th
tomogram, `perm n` the permutation produced by `np.random.permutation(n)`,
and `coin i` the augmentation coin of the `i`-th `__getitem__` call. -/
structure Rng where
  choice : ℕ → ℕ → ℕ
  perm : ℕ → List ℕ
  coin : ℕ → Bool

/-- The filesystem: tomogram files (`mrcfile.mmap`) and mask files
(`mrcfile.read`, a 3-D boolean volume with its shape). -/
structure Env where
  tomo : String → Option Tomo
  mask : String → Option Mask

/-- Opens one tomogram path; a missing file is a fatal error. -/
def openTomo (env : Env) (p : String) : Except String Tomo :=
  match env.tomo p with
  | some t => .ok t
  | none => .error ("No such file: " ++ p)

/-- Opens a list of tomogram paths in order. -/
def openAll (env : Env) (ps : List String) : Except String (List Tomo) :=
  ps.mapM (openTomo env)

/-- The keyword arguments of `CryoCARE_Dataset.__init__`. -/
structure InitArgs where
  tomo_paths_odd : List String
  tomo_paths_even : List String
  mask_paths : Option (List (Option String))
  n_samples_per_tomo : ℕ
  extraction_shapes : List Window
  mean : Option ℚ
  std : Option ℚ
  sample_shape : Shape3
  shuffle : Bool
  n_normalization_samples : ℕ
  tilt_axis : Option Axis

/-- The state of a constructed `CryoCARE_Dataset`. -/
structure Dataset where
  tomo_paths_odd : List String
  tomo_paths_even : List String
  mask_paths : List (Option String)
  n_samples_per_tomo : ℕ
  tilt_axis : Option Axis
  rot_axes : Option ℕ
  extraction_shapes : List Window
  mean : Option ℚ
  std : Option ℚ
  sample_shape : Shape3
  shuffle : Bool
  coords : List (List (ℕ × ℕ))
  tomos_odd : List Tomo
  tomos_even : List Tomo
  length : ℕ
  indices : List ℕ
deriving Inhabited

/-- Resolution of the optional mask in `__create_coords_for_tomo__`: an
absent mask path yields the all-valid 3-D mask `np.ones(even.data.shape)`,
a present one is read from the filesystem and its shape checked against the
volume. -/
def resolveMask (env : Env) (even : Tomo) (even_path : String) :
    Option String → Except String Mask
  | none => .ok ⟨even.d0, even.d1, even.d2, fun _ _ _ => true⟩
  | some mp =>
    match env.mask mp with
    | none => .error ("No such file: " ++ mp)
    | some m =>
      if even.shape ≠ m.shape then
        .error (even_path ++ " and " ++ mp ++ " tomogram / mask have different shapes.")
      else .ok m

/-- `CryoCARE_Dataset.__create_coords_for_tomo__`: reopen both volumes,
check shape equality, resolve the mask, check the
`shape > 2 * sample_shape` assertions on the first two axes, then sample
coordinates. -/
def create_coords_for_tomo (env : Env) (s : Shape3) (rng : ℕ → ℕ) (n : ℕ)
    (even_path odd_path : String) (es : Window) (mask_path : Option String) :
    Except String (List (ℕ × ℕ)) := do
  let even ← openTomo env even_path
  let oddT ← openTomo env odd_path
  if even.shape ≠ oddT.shape then
    .error (even_path ++ " and " ++ odd_path ++ " tomogram have different shapes.")
  else do
    let mask ← resolveMask env even even_path mask_path
    if ¬ (2 * s.s0 < even.d0) then .error "AssertionError"
    else if ¬ (2 * s.s1 < even.d1) then .error "AssertionError"
    else create_random_coords s es.y es.x mask n rng

/-- The loop of `CryoCARE_Dataset.create_coordinate_lists`: `zip` over the
odd paths, even paths, extraction shapes and mask paths (Python `zip`
truncates to the shortest list, which the simultaneous recursion mirrors).
`k` indexes the per-tomogram random stream. -/
def create_coordinate_lists (env : Env) (s : Shape3) (rngC : ℕ → ℕ → ℕ) (n : ℕ) :
    ℕ → List String → List String → List Window → List (Option String) →
    Except String (List (List (ℕ × ℕ)))
  | k, po :: pos, pe :: pes, w :: ws, m :: ms => do
    let c ← create_coords_for_tomo env s (rngC k) n pe po w m
    let rest ← create_coordinate_lists env s rngC n (k + 1) pos pes ws ms
    pure (c :: rest)
  | _, _, _, _, _ => pure []

/-- The part of `CryoCARE_Dataset.__init__` that opens the volumes and
computes the coordinate lists; its result does not depend on the supplied
`mean`/`std`. -/
def initAux (env : Env) (rngC : ℕ → ℕ → ℕ) (po pe : List String)
    (mps : Option (List (Option String))) (es : List Window) (s : Shape3) (n : ℕ) :
    Except String (List Tomo × List Tomo × List (List (ℕ × ℕ))) := do
  let tomos_odd ← openAll env po
  let tomos_even ← openAll env pe
  let masks := mps.getD (List.replicate po.length none)
  let coords ← create_coordinate_lists env s rngC n 0 po pe es masks
  pure (tomos_odd, tomos_even, coords)

/-- `rot_axes` as computed in `__init__` (the remaining in-plane axis index;
unused afterwards because the rotation augmentation is commented out). -/
def rotAxes : Option Axis → Option ℕ
  | none => none
  | some .Y => some 1
  | some .X => some 0

/-- `CryoCARE_Dataset.__init__` up to (but not including) the
`compute_mean_std` call: field assignments, coordinate sampling, total
length, and the index order. -/
def initCore (env : Env) (rng : Rng) (a : InitArgs) : Except String Dataset :=
  (initAux env rng.choice a.tomo_paths_odd a.tomo_paths_even a.mask_paths
      a.extraction_shapes a.sample_shape a.n_samples_per_tomo).map
    fun r =>
      let len := (r.2.2.map List.length).sum
      { tomo_paths_odd := a.tomo_paths_odd
        tomo_paths_even := a.tomo_paths_even
        mask_paths := a.mask_paths.getD (List.replicate a.tomo_paths_odd.length none)
        n_samples_per_tomo := a.n_samples_per_tomo
        tilt_axis := a.tilt_axis
        rot_axes := rotAxes a.tilt_axis
        extraction_shapes := a.extraction_shapes
        mean := a.mean
        std := a.std
        sample_shape := a.sample_shape
        shuffle := a.shuffle
        coords := r.2.2
        tomos_odd := r.1
        tomos_even := r.2.1
        length := len
        indices := if a.shuffle then rng.perm len else List.range len }

/-- `CryoCARE_Dataset.__getitem__(idx)`: split the global index by
`divmod(idx, n_samples_per_tomo)`, look up the stored coordinate (a Python
`IndexError` when the tomogram index is past the coordinate list), read both
sub-volumes and apply the swap augmentation. -/
def getitem (coin : Bool) (ds : Dataset) (idx : ℕ) : Except String (Patch × Patch) :=
  if ds.n_samples_per_tomo = 0 then .error "integer division or modulo by zero"
  else
    let ti := idx / ds.n_samples_per_tomo
    let ci := idx % ds.n_samples_per_tomo
    match ds.coords.get? ti with
    | none => .error "list index out of range"
    | some cs =>
      match cs.get? ci with
      | none => .error "list index out of range"
      | some yx =>
        match ds.tomos_even.get? ti, ds.tomos_odd.get? ti with
        | some te, some tod =>
          .ok (augment coin (extractPatch te yx.1 yx.2 ds.sample_shape)
                (extractPatch tod yx.1 yx.2 ds.sample_shape))
        | _, _ => .error "list index out of range"

/-- Mean of a list of rationals (`np.mean` over the flattened samples). -/
def listMean (l : List ℚ) : ℚ := l.sum / l.length

/-- Variance of a list of rationals.  `np.std` is the square root of this
value; no claim below inspects the numeric value of the stored `std`, and
the square root is injective on nonnegative reals, so the model carries the
variance to stay inside `ℚ`. -/
def listVar (l : List ℚ) : ℚ := listMean (l.map fun v => (v - listMean l) ^ 2)

/-- The voxel values of a patch, flattened in index order. -/
def patchVals (p : Patch) : List ℚ :=
  match p.shape with
  | [a, b, c, _] =>
    (List.range a).flatMap fun i => (List.range b).flatMap fun j =>
      (List.range c).map fun k => p.data i j k
  | _ => []

/-- `CryoCARE_Dataset.compute_mean_std(n_samples)`: draw patches at the
sequential indices `0, 1, …, n_samples - 1` via `__getitem__` (keeping the
first element of each augmented pair) and aggregate their statistics. -/
def compute_mean_std (rng : Rng) (ds : Dataset) (n : ℕ) : Except String (ℚ × ℚ) := do
  let samples ← (List.range n).mapM fun i => do
    let pr ← getitem (rng.coin i) ds i
    pure pr.1
  let vals := samples.flatMap patchVals
  pure (listMean vals, listVar vals)

/-- `CryoCARE_Dataset.__init__`: the core construction followed by
`compute_mean_std` whenever `mean` or `std` was not supplied. -/
def init (env : Env) (rng : Rng) (a : InitArgs) : Except String Dataset := do
  let ds ← initCore env rng a
  if ds.mean.isNone || ds.std.isNone then do
    let ms ← compute_mean_std rng ds a.n_normalization_samples
    pure { ds with mean := some ms.1, std := some ms.2 }
  else pure ds

/-- The fields persisted by `CryoCARE_Dataset.save` via `np.savez`. -/
structure SavedState where
  tomo_paths_odd : List String
  tomo_paths_even : List String
  mean : Option ℚ
  std : Option ℚ
  n_samples_per_tomo : ℕ
  extraction_shapes : List Window
  sample_shape : Shape3
  shuffle : Bool
  coords : List (List (ℕ × ℕ))
  tilt_axis : Option Axis

/-- `CryoCARE_Dataset.save(path)`. -/
def save (ds : Dataset) : SavedState :=
  { tomo_paths_odd := ds.tomo_paths_odd
    tomo_paths_even := ds.tomo_paths_even
    mean := ds.mean
    std := ds.std
    n_samples_per_tomo := ds.n_samples_per_tomo
    extraction_shapes := ds.extraction_shapes
    sample_shape := ds.sample_shape
    shuffle := ds.shuffle
    coords := ds.coords
    tilt_axis := ds.tilt_axis }

/-- `CryoCARE_Dataset.load(path)`: re-run the constructor from the persisted
fields (no `mask_paths`, default `n_normalization_samples`), then overwrite
the freshly sampled coordinates with the persisted ones.  `np.load` wraps
every stored entry in an `ndarray`, so the source's
`isinstance(tmp['tilt_axis'], np.ndarray)` test is always true and the
restored `tilt_axis` is always `None`. -/
def load (env : Env) (rng : Rng) (st : SavedState) : Except String Dataset := do
  let ds ← init env rng
    { tomo_paths_odd := st.tomo_paths_odd
      tomo_paths_even := st.tomo_paths_even
      mask_paths := none
      n_samples_per_tomo := st.n_samples_per_tomo
      extraction_shapes := st.extraction_shapes
      mean := st.mean
      std := st.std
      sample_shape := st.sample_shape
      shuffle := st.shuffle
      n_normalization_samples := 500
      tilt_axis := none }
  pure { ds with coords := st.coords }

/-- The `val_cut_off` computation of `__compute_extraction_shapes__`:
`int(extent * (1 - validation_fraction)) - 1` along the tilt axis, clamped
to `extent - sample_shape[t] - 1` when either resulting region would be
smaller than the footprint extent `sExt` on that axis. -/
def val_cut_off (extent sExt : ℤ) (vf : ℚ) : ℤ :=
  let c0 : ℤ := pyInt ((extent : ℚ) * (1 - vf)) - 1
  if extent - c0 < sExt ∨ c0 < sExt then extent - sExt - 1 else c0

/-- `CryoCARE_DataModule.__compute_extraction_shapes__`: open both volumes,
check the shape equality and `shape > 2 * sample_shape` assertions, compute
the validation cut-off along the tilt axis, and build the train and
validation windows. -/
def compute_extraction_shapes (env : Env) (even_path odd_path : String)
    (tiltIdx : ℕ) (s : Shape3) (vf : ℚ) : Except String (Window × Window) := do
  let even ← openTomo env even_path
  let oddT ← openTomo env odd_path
  if even.shape ≠ oddT.shape then
    .error (even_path ++ " and " ++ odd_path ++ " tomogram have different shapes.")
  else if ¬ (2 * s.s0 < even.d0) then .error "AssertionError"
  else if ¬ (2 * s.s1 < even.d1) then .error "AssertionError"
  else
    let extent : ℤ := if tiltIdx = 0 then even.d0 else even.d1
    let sExt : ℤ := if tiltIdx = 0 then s.s0 else s.s1
    let c : ℤ := val_cut_off extent sExt vf
    if tiltIdx = 0 then
      .ok (⟨(0, c.toNat), (0, even.d1)⟩, ⟨(c.toNat, even.d0), (0, even.d1)⟩)
    else
      .ok (⟨(0, even.d0), (0, c.toNat)⟩, ⟨(0, even.d0), (c.toNat, even.d1)⟩)

/-- The training sample count of `CryoCARE_DataModule.setup`:
`int(n_samples_per_tomo * (1 - validation_fraction))`. -/
def trainCount (n : ℕ) (vf : ℚ) : ℕ := (pyInt ((n : ℚ) * (1 - vf))).toNat

/-- The validation sample count of `CryoCARE_DataModule.setup`:
`int(n_samples_per_tomo * validation_fraction)`. -/
def valCount (n : ℕ) (vf : ℚ) : ℕ := (pyInt ((n : ℚ) * vf)).toNat

/-- `CryoCARE_DataModule.setup`: compute the per-volume train/validation
extraction windows, construct the training dataset (stats unset, shuffled,
tagged with the tilt axis), then the validation dataset (stats copied from
the training dataset, unshuffled, `tilt_axis=None`, default normalization
budget). -/
def setup (env : Env) (rngTrain rngVal : Rng)
    (tomo_paths_odd tomo_paths_even : List String)
    (mask_paths : Option (List (Option String)))
    (n_samples_per_tomo : ℕ) (vf : ℚ) (s : Shape3) (tilt_axis : Axis)
    (n_norm : ℕ) : Except String (Dataset × Dataset) := do
  let shapes ← (tomo_paths_even.zip tomo_paths_odd).mapM fun eo =>
    compute_extraction_shapes env eo.1 eo.2 tilt_axis.index s vf
  let train ← init env rngTrain
    { tomo_paths_odd := tomo_paths_odd
      tomo_paths_even := tomo_paths_even
      mask_paths := mask_paths
      n_samples_per_tomo := trainCount n_samples_per_tomo vf
      extraction_shapes := shapes.map Prod.fst
      mean := none
      std := none
      sample_shape := s
      shuffle := true
      n_normalization_samples := n_norm
      tilt_axis := some tilt_axis }
  let val ← init env rngVal
    { tomo_paths_odd := tomo_paths_odd
      tomo_paths_even := tomo_paths_even
      mask_paths := mask_paths
      n_samples_per_tomo := valCount n_samples_per_tomo vf
      extraction_shapes := shapes.map Prod.snd
      mean := train.mean
      std := train.std
      sample_shape := s
      shuffle := false
      n_normalization_samples := 500
      tilt_axis := none }
  pure (train, val)

/-- Rounding to the nearest integer (half rounds up).  This is the `round`
of the specification text; at every input appearing below the value agrees
with any of the common tie-breaking conventions, including Python's
round-half-to-even. -/
def specRound (q : ℚ) : ℤ := ⌊q + 1 / 2⌋

/-! Concrete instances used by witnesses and counterexamples below: a 7×7×7
volume pair (constant zero voxels), one with depth 5 for the patch-shape
evaluation, and an all-false mask. -/

/-- A 7×7×7 tomogram with constant zero voxels. -/
def tomoW : Tomo := ⟨7, 7, 7, fun _ _ _ => 0⟩

/-- A filesystem with the same 7×7×7 volume under two paths and no masks. -/
def envW : Env :=
  ⟨fun p => if p = "odd.mrc" || p = "even.mrc" then some tomoW else none,
   fun _ => none⟩

/-- A fixed random source: every draw picks index 0, permutations are the
identity, the augmentation coin never swaps. -/
def rngW : Rng := ⟨fun _ _ => 0, fun n => List.range n, fun _ => false⟩

/-- Constructor arguments for a small dataset over `envW`: one volume pair,
2 samples, a full 7×7 window, footprint `(2, 2, 2)`, stats estimated from
one patch. -/
def argsW : InitArgs :=
  { tomo_paths_odd := ["odd.mrc"]
    tomo_paths_even := ["even.mrc"]
    mask_paths := none
    n_samples_per_tomo := 2
    extraction_shapes := [⟨(0, 7), (0, 7)⟩]
    mean := none
    std := none
    sample_shape := ⟨2, 2, 2⟩
    shuffle := true
    n_normalization_samples := 1
    tilt_axis := some .Y }

/-- The dataset built from `argsW` (construction succeeds, proved below). -/
def dsW : Dataset := ((init envW rngW argsW).toOption).getD default

/-- A 7×7 volume whose third axis has extent 5, exposing the unsliced depth
axis of `__getitem__`. -/
def tomoT : Tomo := ⟨7, 7, 5, fun _ _ _ => 0⟩

/-- A filesystem serving `tomoT` under two paths. -/
def envT : Env :=
  ⟨fun p => if p = "o" || p = "e" then some tomoT else none, fun _ => none⟩

/-- Constructor arguments over `envT`: one sample, stats supplied. -/
def argsT : InitArgs :=
  { argsW with
    tomo_paths_odd := ["o"]
    tomo_paths_even := ["e"]
    n_samples_per_tomo := 1
    mean := some 0
    std := some 0 }

/-- The dataset built from `argsT` (construction succeeds, proved below). -/
def dsT : Dataset := ((init envT rngW argsT).toOption).getD default

/-- A filesystem with the 7×7×7 volume pair and an all-false mask file. -/
def envM : Env :=
  ⟨fun p => if p = "odd.mrc" || p = "even.mrc" then some tomoW else none,
   fun p => if p = "mask.mrc" then some ⟨7, 7, 7, fun _ _ _ => false⟩ else none⟩

/-- Constructor arguments identical to `argsW` except that the
normalization budget is 3, exceeding the dataset's total length of 2. -/
def argsOver : InitArgs := { argsW with n_normalization_samples := 3 }

/-- The pre-statistics constructor state built from `argsOver`. -/
def dsOver : Dataset := ((initCore envW rngW argsOver).toOption).getD default

/-- The constructor arguments `setup` passes for the training dataset over
`envW` with `n_samples_per_tomo = 10`, `validation_fraction = 1/4`
(train count `int(10 * 0.75) = 7`; training window `[0, 4) × [0, 7)`). -/
def argsTrain10 : InitArgs :=
  { tomo_paths_odd := ["odd.mrc"]
    tomo_paths_even := ["even.mrc"]
    mask_paths := none
    n_samples_per_tomo := 7
    extraction_shapes := [⟨(0, 4), (0, 7)⟩]
    mean := none
    std := none
    sample_shape := ⟨2, 2, 2⟩
    shuffle := true
    n_normalization_samples := 1
    tilt_axis := some .Y }

/-- The training dataset of that `setup` run. -/
def dsTrain10 : Dataset := ((init envW rngW argsTrain10).toOption).getD default

/-- The corresponding validation constructor arguments (validation count
`int(10 * 0.25) = 2`; validation window `[4, 7) × [0, 7)`; stats copied from
the training dataset). -/
def argsVal10 : InitArgs :=
  { argsTrain10 with
    n_samples_per_tomo := 2
    extraction_shapes := [⟨(4, 7), (0, 7)⟩]
    mean := dsTrain10.mean
    std := dsTrain10.std
    shuffle := false
    n_normalization_samples := 500
    tilt_axis := none }

/-- The validation dataset of that `setup` run. -/
def dsVal10 : Dataset := ((init envW rngW argsVal10).toOption).getD default

/-- The training dataset reloaded from its persisted state. -/
def dsTrain10L : Dataset :=
  ((load envW rngW (save dsTrain10)).toOption).getD default

/-- The validation dataset reloaded from its persisted state. -/
def dsVal10L : Dataset :=
  ((load envW rngW (save dsVal10)).toOption).getD default

/-- The 100×100×100 volume of the specification's split scenario. -/
def tomoScn : Tomo := ⟨100, 100, 100, fun _ _ _ => 0⟩

/-- A filesystem serving the scenario volume under two paths. -/
def envScn : Env :=
  ⟨fun p => if p = "odd.mrc" || p = "even.mrc" then some tomoScn else none,
   fun _ => none⟩

/-- C2: the claim says every sampled coordinate `(y, x)` satisfies
`y + footprint.y ≤ window.y1` and `x + footprint.x ≤ window.x1`.  The source
restricts the *y* range by `sample_shape[1]` and the *x* range by
`sample_shape[0]` — the two footprint components are swapped relative to the
reads `data[y : y + sample_shape[0], x : x + sample_shape[1]]` in
`__getitem__`.  With footprint `(4, 2, 2)`, window `y = [0, 7)`,
`x = [0, 20)`, an all-true mask and one sample, the sampler can return the
coordinate `(4, 0)`, whose footprint extends to `4 + 4 = 8 > 7 = y1`. -/
theorem sampler_swaps_footprint_axes :
    create_random_coords ⟨4, 2, 2⟩ (0, 7) (0, 20) ⟨7, 20, 1, fun _ _ _ => true⟩ 1
        (fun _ => 64)
        = Except.ok [(4, 0)] ∧
      ¬ (4 + (4 : ℕ) ≤ 7) :=
  ⟨rfl, by decide⟩

set_option maxRecDepth 100000 in
/-- C3: the claim says `get(global_index)` returns patches of shape
`footprint + (1,)` in all three dimensions.  `__getitem__` slices only the
first two axes, so the third axis keeps the volume's full depth: on a
7×7×5 volume with footprint `(2, 2, 2)` the returned patches have shape
`(2, 2, 5, 1)`, not `(2, 2, 2, 1)` — contradicting the
`output_shapes = tuple(sample_shape) + (1,)` the module itself declares in
`get_train_dataset`. -/
theorem getitem_keeps_full_depth_axis :
    init envT rngW argsT = Except.ok dsT ∧
    (getitem false dsT 0).map (fun pr => (pr.1.shape, pr.2.shape))
        = Except.ok ([2, 2, 5, 1], [2, 2, 5, 1]) ∧
    ([2, 2, 5, 1] : List ℕ)
        ≠ [argsT.sample_shape.s0, argsT.sample_shape.s1, argsT.sample_shape.s2, 1] :=
  ⟨rfl, rfl, by decide⟩

/-! Lemmas about the coordinate sampler. -/

theorem drawWoR_length (rng : ℕ → ℕ) :
    ∀ (k step : ℕ) (pool : List ℕ), k ≤ pool.length →
      (drawWithoutReplacement rng step k pool).length = k
  | 0, _, _, _ => rfl
  | k + 1, step, pool, h => by
    have hpos : 0 < pool.length := Nat.lt_of_lt_of_le (Nat.succ_pos k) h
    have hi : rng step % pool.length < pool.length := Nat.mod_lt _ hpos
    have hk : k ≤ (pool.eraseIdx (rng step % pool.length)).length := by
      rw [List.length_eraseIdx]
      simp only [hi, if_pos]
      omega
    simp only [drawWithoutReplacement, List.length_cons]
    rw [drawWoR_length rng k (step + 1) _ hk]

theorem drawWoR_subset (rng : ℕ → ℕ) :
    ∀ (k step : ℕ) (pool : List ℕ), k ≤ pool.length →
      ∀ v ∈ drawWithoutReplacement rng step k pool, v ∈ pool
  | 0, _, _, _ => by simp [drawWithoutReplacement]
  | k + 1, step, pool, h => by
    intro v hv
    have hpos : 0 < pool.length := Nat.lt_of_lt_of_le (Nat.succ_pos k) h
    have hi : rng step % pool.length < pool.length := Nat.mod_lt _ hpos
    have hk : k ≤ (pool.eraseIdx (rng step % pool.length)).length := by
      rw [List.length_eraseIdx]
      simp only [hi, if_pos]
      omega
    simp only [drawWithoutReplacement, List.mem_cons] at hv
    rcases hv with rfl | hv
    · rw [List.getD_eq_getElem _ _ hi]
      exact List.getElem_mem hi
    · exact List.mem_of_mem_eraseIdx (drawWoR_subset rng k (step + 1) _ hk v hv)

theorem drawWoR_nodup (rng : ℕ → ℕ) :
    ∀ (k step : ℕ) (pool : List ℕ), k ≤ pool.length → pool.Nodup →
      (drawWithoutReplacement rng step k pool).Nodup
  | 0, _, _, _, _ => by simp [drawWithoutReplacement]
  | k + 1, step, pool, h, hnd => by
    have hpos : 0 < pool.length := Nat.lt_of_lt_of_le (Nat.succ_pos k) h
    have hi : rng step % pool.length < pool.length := Nat.mod_lt _ hpos
    have hk : k ≤ (pool.eraseIdx (rng step % pool.length)).length := by
      rw [List.length_eraseIdx]
      simp only [hi, if_pos]
      omega
    simp only [drawWithoutReplacement, List.nodup_cons]
    refine ⟨fun hmem => ?_, drawWoR_nodup rng k (step + 1) _ hk (hnd.eraseIdx _)⟩
    have hmem2 : pool.getD (rng step % pool.length) 0
        ∈ pool.eraseIdx (rng step % pool.length) :=
      drawWoR_subset rng k (step + 1) _ hk _ hmem
    rw [List.getD_eq_getElem _ _ hi] at hmem2
    rcases List.mem_eraseIdx_iff_getElem.mp hmem2 with ⟨j, hj, hne, hEq⟩
    exact hne (hnd.getElem_inj_iff.mp hEq)

theorem validInds_nodup (s : Shape3) (y x : ℕ × ℕ) (mask : Mask) :
    (validInds s y x mask).Nodup := by
  rw [validInds, List.nodup_flatMap]
  constructor
  · intro i _
    rw [List.nodup_flatMap]
    constructor
    · intro j _
      refine List.Nodup.filterMap ?_ (List.nodup_range _)
      intro a b c hca hcb
      by_cases ha : mask.val i j a
      · by_cases hb : mask.val i j b
        · simp only [Option.mem_def, ha, hb, if_true] at hca hcb
          rw [Option.some.injEq] at hca hcb
          rw [← hcb] at hca
          have := congrArg (fun p => p.2.2) hca
          simpa using this
        · simp [hb] at hcb
      · simp [ha] at hca
    · refine (List.pairwise_lt_range' _ _).imp ?_
      intro a b hab p hpa hpb
      simp only [List.mem_filterMap] at hpa hpb
      rcases hpa with ⟨u, -, hu⟩
      rcases hpb with ⟨v, -, hv⟩
      by_cases hmu : mask.val i a u
      · by_cases hmv : mask.val i b v
        · simp only [hmu, hmv, if_true] at hu hv
          rw [Option.some.injEq] at hu hv
          rw [← hu] at hv
          have hba : b = a := by
            have := congrArg (fun p => p.2.1) hv
            simpa using this
          omega
        · simp [hmv] at hv
      · simp [hmu] at hu
  · refine (List.pairwise_lt_range' _ _).imp ?_
    intro a b hab p hpa hpb
    simp only [List.mem_flatMap, List.mem_filterMap] at hpa hpb
    rcases hpa with ⟨j1, -, u, -, hu⟩
    rcases hpb with ⟨j2, -, v, -, hv⟩
    by_cases hmu : mask.val a j1 u
    · by_cases hmv : mask.val b j2 v
      · simp only [hmu, hmv, if_true] at hu hv
        rw [Option.some.injEq] at hu hv
        rw [← hu] at hv
        have hba : b = a := by
          have := congrArg (fun p => p.1) hv
          simpa using this
        omega
      · simp [hmv] at hv
    · simp [hmu] at hu

theorem crc_ok (s : Shape3) (y x : ℕ × ℕ) (mask : Mask) (n : ℕ)
    (rng : ℕ → ℕ) (hne : validInds s y x mask ≠ []) :
    create_random_coords s y x mask n rng =
      Except.ok ((if (validInds s y x mask).length < n
          then drawWithReplacement rng (validInds s y x mask).length n
          else drawWithoutReplacement rng 0 n
            (List.range (validInds s y x mask).length)).map
        fun i => (((validInds s y x mask).getD i (0, 0, 0)).1,
          ((validInds s y x mask).getD i (0, 0, 0)).2.1)) := by
  have h0 : ¬((validInds s y x mask).length = 0 ∧ 0 < n) := by
    rintro ⟨h, -⟩
    exact hne (List.length_eq_zero.mp h)
  simp only [create_random_coords]
  rw [if_neg h0]

/-- C7: on a non-empty candidate set — the true cells of the 3-D restricted
mask region, which is what `np.where` enumerates and what
`np.random.choice` counts — the sampler returns exactly `count` coordinate
pairs, each the `(y, x)` projection of a drawn candidate cell; the draw is
without replacement over the candidate set (the drawn cells are pairwise
distinct) exactly when the candidate set has at least `count` cells, and
with replacement (repeated cells are forced by pigeonhole) exactly when it
is smaller.  Distinct drawn cells can still project to equal `(y, x)`
pairs, since the source's `zip(slices, valid_inds)` drops the third index
array.  Uniformity of the individual draws is the contract of
`np.random.choice`, abstracted here as the explicit random source. -/
theorem sampler_count_and_replacement (s : Shape3) (y x : ℕ × ℕ)
    (mask : Mask) (n : ℕ) (rng : ℕ → ℕ)
    (hne : validInds s y x mask ≠ []) :
    ∃ (res : List (ℕ × ℕ)) (cells : List (ℕ × ℕ × ℕ)),
      create_random_coords s y x mask n rng = Except.ok res ∧
      res = cells.map (fun c => (c.1, c.2.1)) ∧
      res.length = n ∧ cells.length = n ∧
      (∀ c ∈ cells, c ∈ validInds s y x mask) ∧
      (n ≤ (validInds s y x mask).length → cells.Nodup) ∧
      ((validInds s y x mask).length < n → ¬ cells.Nodup) := by
  have hL : 0 < (validInds s y x mask).length := List.length_pos.mpr hne
  set cands := validInds s y x mask with hcands
  set inds := (if cands.length < n
      then drawWithReplacement rng cands.length n
      else drawWithoutReplacement rng 0 n (List.range cands.length)) with hinds
  have hindslen : inds.length = n := by
    rw [hinds]
    by_cases hlt : cands.length < n
    · simp [hlt, drawWithReplacement]
    · simp only [hlt, if_neg, not_false_iff]
      exact drawWoR_length rng n 0 _ (by simpa using Nat.le_of_not_lt hlt)
  have hindsmem : ∀ i ∈ inds, i < cands.length := by
    intro i hi
    rw [hinds] at hi
    by_cases hlt : cands.length < n <;>
      simp only [hlt, if_pos, if_neg, not_false_iff] at hi
    · simp only [drawWithReplacement, List.mem_map, List.mem_range] at hi
      rcases hi with ⟨j, -, rfl⟩
      exact Nat.mod_lt _ hL
    · exact List.mem_range.mp (drawWoR_subset rng n 0 (List.range cands.length)
        (by simpa using Nat.le_of_not_lt hlt) i hi)
  refine ⟨inds.map (fun i =>
      ((cands.getD i (0, 0, 0)).1, (cands.getD i (0, 0, 0)).2.1)),
    inds.map (fun i => cands.getD i (0, 0, 0)),
    crc_ok s y x mask n rng hne, by rw [List.map_map]; rfl,
    by rw [List.length_map, hindslen], by rw [List.length_map, hindslen],
    ?_, ?_, ?_⟩
  · intro c hc
    simp only [List.mem_map] at hc
    rcases hc with ⟨i, hi, rfl⟩
    have hilt := hindsmem i hi
    rw [List.getD_eq_getElem _ _ hilt]
    exact List.getElem_mem hilt
  · intro hge
    have hlt : ¬ cands.length < n := Nat.not_lt.mpr hge
    have hdr : inds.Nodup := by
      rw [hinds]
      simp only [hlt, if_neg, not_false_iff]
      exact drawWoR_nodup rng n 0 (List.range cands.length)
        (by simpa using hge) (List.nodup_range _)
    refine List.Nodup.map_on ?_ hdr
    intro u hu v hv hEq
    have hu2 := hindsmem u hu
    have hv2 := hindsmem v hv
    rw [List.getD_eq_getElem _ _ hu2, List.getD_eq_getElem _ _ hv2] at hEq
    exact (validInds_nodup s y x mask).getElem_inj_iff.mp hEq
  · intro hlt hnd
    have hlen2 : (inds.map (fun i => cands.getD i (0, 0, 0))).length = n := by
      rw [List.length_map, hindslen]
    have hsub : ∀ c ∈ inds.map (fun i => cands.getD i (0, 0, 0)), c ∈ cands := by
      intro c hc
      simp only [List.mem_map] at hc
      rcases hc with ⟨i, hi, rfl⟩
      have hilt := hindsmem i hi
      rw [List.getD_eq_getElem _ _ hilt]
      exact List.getElem_mem hilt
    have hle : (inds.map (fun i => cands.getD i (0, 0, 0))).length
        ≤ cands.length := by
      calc (inds.map (fun i => cands.getD i (0, 0, 0))).length
          = (inds.map (fun i => cands.getD i (0, 0, 0))).toFinset.card :=
            (List.toFinset_card_of_nodup hnd).symm
        _ ≤ cands.toFinset.card := Finset.card_le_card (fun a ha => by
            simp only [List.mem_toFinset] at ha ⊢
            exact hsub a ha)
        _ ≤ cands.length := cands.toFinset_card_le
    omega

theorem validInds_false (s : Shape3) (y x : ℕ × ℕ) (mask : Mask)
    (hm : ∀ i j k, mask.val i j k = false) : validInds s y x mask = [] := by
  rw [validInds, List.flatMap_eq_nil_iff]
  intro i _
  rw [List.flatMap_eq_nil_iff]
  intro j _
  rw [List.filterMap_eq_nil_iff]
  intro k _
  simp [hm i j k]

theorem crc_error_of_false_mask (s : Shape3) (y x : ℕ × ℕ) (mask : Mask)
    (hm : ∀ i j k, mask.val i j k = false) (n : ℕ) (hn : 0 < n) (rng : ℕ → ℕ) :
    create_random_coords s y x mask n rng =
      .error "a must be greater than 0 unless no samples are taken" := by
  simp only [create_random_coords]
  rw [if_pos ⟨by simp [validInds_false s y x mask hm], hn⟩]

theorem bind_ok_ex {α β : Type} (a : α) (f : α → Except String β) :
    (Except.ok a >>= f) = f a := rfl

theorem bind_error_ex {α β : Type} (e : String) (f : α → Except String β) :
    ((Except.error e : Except String α) >>= f) = Except.error e := rfl

theorem map_error_ex {α β : Type} (e : String) (f : α → β) :
    ((Except.error e : Except String α).map f) = Except.error e := rfl

theorem init_error_of_aux (env : Env) (rng : Rng) (a : InitArgs) (e : String)
    (h : initAux env rng.choice a.tomo_paths_odd a.tomo_paths_even a.mask_paths
      a.extraction_shapes a.sample_shape a.n_samples_per_tomo = .error e) :
    init env rng a = .error e := by
  simp only [init, initCore, h, map_error_ex, bind_error_ex]

theorem ces_ok (env : Env) (ep op : String) (tomo : Tomo) (tiltIdx : ℕ)
    (s : Shape3) (vf : ℚ)
    (he : env.tomo ep = some tomo) (ho : env.tomo op = some tomo)
    (h0 : 2 * s.s0 < tomo.d0) (h1 : 2 * s.s1 < tomo.d1) :
    ∃ w, compute_extraction_shapes env ep op tiltIdx s vf = .ok w := by
  simp only [compute_extraction_shapes, openTomo, he, ho, bind_ok_ex]
  rw [if_neg (by simp), if_neg (not_not_intro h0), if_neg (not_not_intro h1)]
  by_cases ht : tiltIdx = 0
  · rw [if_pos ht]
    exact ⟨_, rfl⟩
  · rw [if_neg ht]
    exact ⟨_, rfl⟩

/-- C6: when the validity mask admits no candidate coordinate (here: an
all-false mask, so the mask-restricted candidate region is empty for any
window), `setup` fails with the error raised by `np.random.choice` on an
empty population instead of returning a dataset with zero or fewer samples
than requested. -/
theorem all_false_mask_setup_fails (env : Env) (rngT rngV : Rng) (tomo : Tomo)
    (mv : ℕ → ℕ → ℕ → Bool) (hm : ∀ i j k, mv i j k = false)
    (he : env.tomo "even.mrc" = some tomo) (ho : env.tomo "odd.mrc" = some tomo)
    (hmE : env.mask "mask.mrc" = some ⟨tomo.d0, tomo.d1, tomo.d2, mv⟩)
    (n : ℕ) (vf : ℚ) (s : Shape3) (ax : Axis) (nn : ℕ)
    (h0 : 2 * s.s0 < tomo.d0) (h1 : 2 * s.s1 < tomo.d1)
    (hn : 0 < trainCount n vf) :
    setup env rngT rngV ["odd.mrc"] ["even.mrc"] (some [some "mask.mrc"]) n vf s ax nn
      = .error "a must be greater than 0 unless no samples are taken" := by
  have hcrc : ∀ (y x : ℕ × ℕ) (rng : ℕ → ℕ),
      create_random_coords s y x ⟨tomo.d0, tomo.d1, tomo.d2, mv⟩
          (trainCount n vf) rng =
        .error "a must be greater than 0 unless no samples are taken" :=
    fun y x rng => crc_error_of_false_mask s y x ⟨tomo.d0, tomo.d1, tomo.d2, mv⟩
      hm _ hn rng
  obtain ⟨w, hw⟩ := ces_ok env "even.mrc" "odd.mrc" tomo ax.index s vf he ho h0 h1
  obtain ⟨wt, wv⟩ := w
  have hcc : create_coords_for_tomo env s (rngT.choice 0) (trainCount n vf)
      "even.mrc" "odd.mrc" wt (some "mask.mrc")
      = .error "a must be greater than 0 unless no samples are taken" := by
    simp only [create_coords_for_tomo, openTomo, he, ho, bind_ok_ex]
    rw [if_neg (by simp)]
    simp only [resolveMask, hmE]
    rw [if_neg (by simp [Tomo.shape, Mask.shape])]
    simp only [bind_ok_ex]
    rw [if_neg (not_not_intro h0), if_neg (not_not_intro h1)]
    exact hcrc _ _ _
  have hccl : create_coordinate_lists env s rngT.choice (trainCount n vf) 0
      ["odd.mrc"] ["even.mrc"] [wt] [some "mask.mrc"]
      = .error "a must be greater than 0 unless no samples are taken" := by
    simp only [create_coordinate_lists, hcc, bind_error_ex]
  have hopo : openAll env ["odd.mrc"] = .ok [tomo] := by
    simp only [openAll, List.mapM_cons, List.mapM_nil, openTomo, ho, bind_ok_ex,
      pure_bind]
    rfl
  have hope : openAll env ["even.mrc"] = .ok [tomo] := by
    simp only [openAll, List.mapM_cons, List.mapM_nil, openTomo, he, bind_ok_ex,
      pure_bind]
    rfl
  have hA : initAux env rngT.choice ["odd.mrc"] ["even.mrc"]
      (some [some "mask.mrc"]) (List.map Prod.fst [(wt, wv)]) s (trainCount n vf)
      = .error "a must be greater than 0 unless no samples are taken" := by
    simp only [initAux, hopo, hope, bind_ok_ex, Option.getD_some, List.map_cons,
      List.map_nil, hccl, bind_error_ex]
  have hInit : init env rngT
      { tomo_paths_odd := ["odd.mrc"]
        tomo_paths_even := ["even.mrc"]
        mask_paths := some [some "mask.mrc"]
        n_samples_per_tomo := trainCount n vf
        extraction_shapes := List.map Prod.fst [(wt, wv)]
        mean := none
        std := none
        sample_shape := s
        shuffle := true
        n_normalization_samples := nn
        tilt_axis := some ax }
      = .error "a must be greater than 0 unless no samples are taken" :=
    init_error_of_aux env rngT _ _ hA
  have hzip : (["even.mrc"].zip ["odd.mrc"]) = [("even.mrc", "odd.mrc")] := rfl
  simp only [setup, hzip, List.mapM_cons, List.mapM_nil, hw, bind_ok_ex, pure_bind,
    hInit, bind_error_ex]

/-- Witness for `all_false_mask_setup_fails`: the concrete 7×7×7 pair with
the all-false mask file and 3 requested training samples. -/
theorem all_false_mask_setup_fails_witness :
    0 < trainCount 4 (1 / 4) ∧
    setup envM rngW rngW ["odd.mrc"] ["even.mrc"] (some [some "mask.mrc"]) 4
      (1 / 4) ⟨2, 2, 2⟩ Axis.Y 1
      = .error "a must be greater than 0 unless no samples are taken" :=
  ⟨by norm_num [trainCount, pyInt],
    all_false_mask_setup_fails envM rngW rngW tomoW (fun _ _ _ => false)
      (fun _ _ _ => rfl) rfl rfl rfl 4 (1 / 4) ⟨2, 2, 2⟩ .Y 1 (by decide) (by decide)
      (by norm_num [trainCount, pyInt])⟩

/-- Witness for `sampler_count_and_replacement`: footprint `(2, 2, 2)`,
window `[0, 7) × [0, 7)`, all-true 7×7×1 mask, 2 samples. -/
theorem sampler_count_and_replacement_witness :
    validInds ⟨2, 2, 2⟩ (0, 7) (0, 7) ⟨7, 7, 1, fun _ _ _ => true⟩ ≠ [] ∧
    ∃ (res : List (ℕ × ℕ)) (cells : List (ℕ × ℕ × ℕ)),
      create_random_coords ⟨2, 2, 2⟩ (0, 7) (0, 7) ⟨7, 7, 1, fun _ _ _ => true⟩ 2
        (fun _ => 0) = Except.ok res ∧
      res = cells.map (fun c => (c.1, c.2.1)) ∧
      res.length = 2 ∧ cells.length = 2 ∧
      (∀ c ∈ cells,
        c ∈ validInds ⟨2, 2, 2⟩ (0, 7) (0, 7) ⟨7, 7, 1, fun _ _ _ => true⟩) ∧
      (2 ≤ (validInds ⟨2, 2, 2⟩ (0, 7) (0, 7) ⟨7, 7, 1, fun _ _ _ => true⟩).length →
        cells.Nodup) ∧
      ((validInds ⟨2, 2, 2⟩ (0, 7) (0, 7) ⟨7, 7, 1, fun _ _ _ => true⟩).length < 2 →
        ¬ cells.Nodup) :=
  ⟨by decide,
    sampler_count_and_replacement ⟨2, 2, 2⟩ (0, 7) (0, 7)
      ⟨7, 7, 1, fun _ _ _ => true⟩ 2 (fun _ => 0) (by decide)⟩

theorem ces_Y_eval (env : Env) (ep op : String) (tomo : Tomo) (s : Shape3)
    (vf : ℚ) (he : env.tomo ep = some tomo) (ho : env.tomo op = some tomo)
    (h0 : 2 * s.s0 < tomo.d0) (h1 : 2 * s.s1 < tomo.d1) :
    compute_extraction_shapes env ep op 0 s vf
      = .ok (⟨(0, (val_cut_off (tomo.d0 : ℤ) (s.s0 : ℤ) vf).toNat), (0, tomo.d1)⟩,
             ⟨((val_cut_off (tomo.d0 : ℤ) (s.s0 : ℤ) vf).toNat, tomo.d0),
               (0, tomo.d1)⟩) := by
  simp only [compute_extraction_shapes, openTomo, he, ho, bind_ok_ex]
  rw [if_neg (by simp), if_neg (not_not_intro h0), if_neg (not_not_intro h1)]
  simp

theorem ces_X_eval (env : Env) (ep op : String) (tomo : Tomo) (s : Shape3)
    (vf : ℚ) (he : env.tomo ep = some tomo) (ho : env.tomo op = some tomo)
    (h0 : 2 * s.s0 < tomo.d0) (h1 : 2 * s.s1 < tomo.d1) :
    compute_extraction_shapes env ep op 1 s vf
      = .ok (⟨(0, tomo.d0), (0, (val_cut_off (tomo.d1 : ℤ) (s.s1 : ℤ) vf).toNat)⟩,
             ⟨(0, tomo.d0),
               ((val_cut_off (tomo.d1 : ℤ) (s.s1 : ℤ) vf).toNat, tomo.d1)⟩) := by
  simp only [compute_extraction_shapes, openTomo, he, ho, bind_ok_ex]
  rw [if_neg (by simp), if_neg (not_not_intro h0), if_neg (not_not_intro h1)]
  simp

/-- C4: the split point along the tilt axis is
`cutoff = floor(extent * (1 - validation_fraction)) - 1`, clamped to
`extent - footprint_extent - 1` whenever `extent - cutoff` or `cutoff` is
smaller than the footprint extent (`val_cut_off` is exactly the source's
computation; `int()` truncation coincides with `floor` because the product
is nonnegative for `vf ≤ 1`); the training window is `[0, cutoff)` and the
validation window `[cutoff, extent)` on that axis with the full extent on
the other in-plane axis; after clamping both regions can host a
footprint-sized patch; and in the spec scenario — volume `(100,100,100)`,
footprint `(32,32,32)`, `validation_fraction = 0.1`, first in-plane axis —
the windows are `[0,67) × [0,100)` and `[67,100) × [0,100)`. -/
theorem extraction_split_cutoff_spec (env : Env) (ep op : String) (tomo : Tomo)
    (s : Shape3) (vf : ℚ) (extent fpExt : ℤ)
    (he : env.tomo ep = some tomo) (ho : env.tomo op = some tomo)
    (h0 : 2 * s.s0 < tomo.d0) (h1 : 2 * s.s1 < tomo.d1)
    (hext : 2 * fpExt < extent) (hfp : 0 ≤ fpExt) (hvf1 : vf ≤ 1) :
    (val_cut_off extent fpExt vf
        = (if extent - (⌊(extent : ℚ) * (1 - vf)⌋ - 1) < fpExt
              ∨ ⌊(extent : ℚ) * (1 - vf)⌋ - 1 < fpExt
           then extent - fpExt - 1 else ⌊(extent : ℚ) * (1 - vf)⌋ - 1)) ∧
    fpExt ≤ val_cut_off extent fpExt vf ∧
    fpExt ≤ extent - val_cut_off extent fpExt vf ∧
    (compute_extraction_shapes env ep op Axis.Y.index s vf
        = .ok (⟨(0, (val_cut_off (tomo.d0 : ℤ) (s.s0 : ℤ) vf).toNat), (0, tomo.d1)⟩,
               ⟨((val_cut_off (tomo.d0 : ℤ) (s.s0 : ℤ) vf).toNat, tomo.d0),
                 (0, tomo.d1)⟩)) ∧
    (compute_extraction_shapes env ep op Axis.X.index s vf
        = .ok (⟨(0, tomo.d0), (0, (val_cut_off (tomo.d1 : ℤ) (s.s1 : ℤ) vf).toNat)⟩,
               ⟨(0, tomo.d0),
                 ((val_cut_off (tomo.d1 : ℤ) (s.s1 : ℤ) vf).toNat, tomo.d1)⟩)) ∧
    compute_extraction_shapes envScn "even.mrc" "odd.mrc" 0 ⟨32, 32, 32⟩ (1 / 10)
      = .ok (⟨(0, 67), (0, 100)⟩, ⟨(67, 100), (0, 100)⟩) := by
  have hq : 0 ≤ (extent : ℚ) * (1 - vf) := by
    have h1 : (0 : ℚ) ≤ (extent : ℚ) := by
      have : (0 : ℤ) ≤ extent := by omega
      exact_mod_cast this
    have h2 : (0 : ℚ) ≤ 1 - vf := by linarith
    exact mul_nonneg h1 h2
  have hpy : pyInt ((extent : ℚ) * (1 - vf)) = ⌊(extent : ℚ) * (1 - vf)⌋ := by
    simp [pyInt, hq]
  refine ⟨?_, ?_, ?_, ?_, ?_, ?_⟩
  · simp only [val_cut_off, hpy]
  · simp only [val_cut_off, hpy]
    split
    · omega
    · rename_i hcond
      omega
  · simp only [val_cut_off, hpy]
    split
    · omega
    · rename_i hcond
      omega
  · exact ces_Y_eval env ep op tomo s vf he ho h0 h1
  · exact ces_X_eval env ep op tomo s vf he ho h0 h1
  · rw [ces_Y_eval envScn "even.mrc" "odd.mrc" tomoScn ⟨32, 32, 32⟩ (1 / 10) rfl rfl
      (by decide) (by decide)]
    norm_num [tomoScn, val_cut_off, pyInt]
    decide

/-- Witness for `extraction_split_cutoff_spec`: the specification's own
scenario, `extent = 100`, footprint extent `32`, `vf = 1/10`. -/
theorem extraction_split_cutoff_spec_witness :
    (1 / 10 : ℚ) ≤ 1 ∧ (2 * (32 : ℤ) < 100) ∧
    ((32 : ℤ) ≤ val_cut_off 100 32 (1 / 10) ∧
     (32 : ℤ) ≤ 100 - val_cut_off 100 32 (1 / 10) ∧
     compute_extraction_shapes envScn "even.mrc" "odd.mrc" 0 ⟨32, 32, 32⟩ (1 / 10)
       = .ok (⟨(0, 67), (0, 100)⟩, ⟨(67, 100), (0, 100)⟩)) := by
  refine ⟨by norm_num, by decide, ?_⟩
  obtain ⟨-, h2, h3, -, -, h6⟩ := extraction_split_cutoff_spec envScn "even.mrc"
    "odd.mrc" tomoScn ⟨32, 32, 32⟩ (1 / 10) 100 32 rfl rfl (by decide) (by decide)
    (by decide) (by decide) (by norm_num)
  exact ⟨h2, h3, h6⟩

/-! Inversion lemmas for the `Except` chains of the constructor. -/

theorem bind_ok_inv {α β : Type} {x : Except String α} {f : α → Except String β}
    {b : β} (h : (x >>= f) = .ok b) : ∃ a, x = .ok a ∧ f a = .ok b := by
  cases x with
  | error e => simp [bind_error_ex] at h
  | ok a => exact ⟨a, rfl, by simpa [bind_ok_ex] using h⟩

theorem map_ok_inv {α β : Type} {x : Except String α} {f : α → β} {b : β}
    (h : x.map f = .ok b) : ∃ a, x = .ok a ∧ f a = b := by
  cases x with
  | error e => simp [map_error_ex] at h
  | ok a =>
    refine ⟨a, rfl, ?_⟩
    have : Except.ok (f a) = Except.ok b := h
    injection this

theorem openAll_ok_length (env : Env) : ∀ (ps : List String) (ts : List Tomo),
    openAll env ps = .ok ts → ts.length = ps.length
  | [], ts, h => by
    simp only [openAll, List.mapM_nil] at h
    have : ([] : List Tomo) = ts := by simpa [pure, Except.pure] using h
    simp [← this]
  | p :: ps, ts, h => by
    simp only [openAll, List.mapM_cons] at h
    obtain ⟨t, ht, h2⟩ := bind_ok_inv h
    obtain ⟨ts2, hts2, h3⟩ := bind_ok_inv h2
    have : Except.ok (t :: ts2) = Except.ok ts := h3
    injection this with h4
    subst h4
    simpa using openAll_ok_length env ps ts2 hts2

theorem draws_map_length (cands : List (ℕ × ℕ × ℕ)) (n : ℕ) (rng : ℕ → ℕ) :
    ((if cands.length < n then drawWithReplacement rng cands.length n
      else drawWithoutReplacement rng 0 n (List.range cands.length)).map
      (fun i => ((cands.getD i (0, 0, 0)).1,
        (cands.getD i (0, 0, 0)).2.1))).length = n := by
  by_cases hlt : cands.length < n
  · simp [hlt, drawWithReplacement]
  · simp only [hlt, if_neg, not_false_iff, List.length_map]
    exact drawWoR_length rng n 0 _ (by simpa using Nat.le_of_not_lt hlt)

theorem crc_ok_length (s : Shape3) (y x : ℕ × ℕ) (mask : Mask) (n : ℕ)
    (rng : ℕ → ℕ) (c : List (ℕ × ℕ))
    (h : create_random_coords s y x mask n rng = .ok c) : c.length = n := by
  simp only [create_random_coords] at h
  by_cases hg : (validInds s y x mask).length = 0 ∧ 0 < n
  · rw [if_pos hg] at h
    cases h
  · rw [if_neg hg] at h
    injection h with h
    rw [← h]
    exact draws_map_length _ n rng

theorem cc4t_ok_length (env : Env) (s : Shape3) (rng : ℕ → ℕ) (n : ℕ)
    (ep op : String) (es : Window) (mp : Option String) (c : List (ℕ × ℕ))
    (h : create_coords_for_tomo env s rng n ep op es mp = .ok c) : c.length = n := by
  simp only [create_coords_for_tomo] at h
  obtain ⟨even, -, h⟩ := bind_ok_inv h
  obtain ⟨oddT, -, h⟩ := bind_ok_inv h
  by_cases hsh : even.shape ≠ oddT.shape
  · rw [if_pos hsh] at h
    cases h
  · rw [if_neg hsh] at h
    obtain ⟨mask, -, h⟩ := bind_ok_inv h
    by_cases h0 : ¬(2 * s.s0 < even.d0)
    · rw [if_pos h0] at h
      cases h
    · rw [if_neg h0] at h
      by_cases h1 : ¬(2 * s.s1 < even.d1)
      · rw [if_pos h1] at h
        cases h
      · rw [if_neg h1] at h
        exact crc_ok_length _ _ _ _ _ _ _ h

theorem ccl_ok_spec (env : Env) (s : Shape3) (rngC : ℕ → ℕ → ℕ) (n : ℕ) :
    ∀ (k : ℕ) (po pe : List String) (ws : List Window) (ms : List (Option String))
      (cs : List (List (ℕ × ℕ))),
      create_coordinate_lists env s rngC n k po pe ws ms = .ok cs →
      (∀ c ∈ cs, c.length = n) ∧ cs.length ≤ po.length ∧ cs.length ≤ pe.length
  | k, po :: pos, pe :: pes, w :: wss, m :: mss, cs, h => by
    simp only [create_coordinate_lists] at h
    obtain ⟨c, hc, h⟩ := bind_ok_inv h
    obtain ⟨rest, hrest, h⟩ := bind_ok_inv h
    have hcs : Except.ok (c :: rest) = Except.ok cs := h
    injection hcs with hcs
    subst hcs
    obtain ⟨ih1, ih2, ih3⟩ := ccl_ok_spec env s rngC n (k + 1) pos pes wss mss rest hrest
    refine ⟨?_, by simpa using Nat.succ_le_succ ih2,
      by simpa using Nat.succ_le_succ ih3⟩
    intro d hd
    rcases List.mem_cons.mp hd with rfl | hd
    · exact cc4t_ok_length env s (rngC k) n pe po w m d hc
    · exact ih1 d hd
  | _, [], _, _, _, cs, h => by
    have hcs : Except.ok ([] : List (List (ℕ × ℕ))) = Except.ok cs := h
    injection hcs with hcs
    subst hcs
    simp
  | _, _ :: _, [], _, _, cs, h => by
    have hcs : Except.ok ([] : List (List (ℕ × ℕ))) = Except.ok cs := h
    injection hcs with hcs
    subst hcs
    simp
  | _, _ :: _, _ :: _, [], _, cs, h => by
    have hcs : Except.ok ([] : List (List (ℕ × ℕ))) = Except.ok cs := h
    injection hcs with hcs
    subst hcs
    simp
  | _, _ :: _, _ :: _, _ :: _, [], cs, h => by
    have hcs : Except.ok ([] : List (List (ℕ × ℕ))) = Except.ok cs := h
    injection hcs with hcs
    subst hcs
    simp

theorem initAux_ok_spec (env : Env) (rngC : ℕ → ℕ → ℕ) (po pe : List String)
    (mps : Option (List (Option String))) (es : List Window) (s : Shape3) (n : ℕ)
    (r : List Tomo × List Tomo × List (List (ℕ × ℕ)))
    (h : initAux env rngC po pe mps es s n = .ok r) :
    openAll env po = .ok r.1 ∧ openAll env pe = .ok r.2.1 ∧
    create_coordinate_lists env s rngC n 0 po pe es
      (mps.getD (List.replicate po.length none)) = .ok r.2.2 := by
  simp only [initAux] at h
  obtain ⟨tos, hto, h⟩ := bind_ok_inv h
  obtain ⟨te, hte, h⟩ := bind_ok_inv h
  obtain ⟨cs, hcs, h⟩ := bind_ok_inv h
  have h2 : Except.ok (tos, te, cs) = Except.ok r := h
  injection h2 with h2
  subst h2
  exact ⟨hto, hte, hcs⟩

theorem initCore_ok_inv (env : Env) (rng : Rng) (a : InitArgs) (ds : Dataset)
    (h : initCore env rng a = .ok ds) :
    ∃ r, initAux env rng.choice a.tomo_paths_odd a.tomo_paths_even a.mask_paths
        a.extraction_shapes a.sample_shape a.n_samples_per_tomo = .ok r ∧
      ds.coords = r.2.2 ∧ ds.tomos_odd = r.1 ∧ ds.tomos_even = r.2.1 ∧
      ds.mean = a.mean ∧ ds.std = a.std ∧
      ds.n_samples_per_tomo = a.n_samples_per_tomo ∧
      ds.tomo_paths_odd = a.tomo_paths_odd ∧
      ds.tomo_paths_even = a.tomo_paths_even ∧
      ds.extraction_shapes = a.extraction_shapes ∧
      ds.sample_shape = a.sample_shape ∧ ds.shuffle = a.shuffle ∧
      ds.tilt_axis = a.tilt_axis ∧
      ds.length = (r.2.2.map List.length).sum := by
  simp only [initCore] at h
  obtain ⟨r, hr, h2⟩ := map_ok_inv h
  subst h2
  exact ⟨r, hr, rfl, rfl, rfl, rfl, rfl, rfl, rfl, rfl, rfl, rfl, rfl, rfl, rfl⟩

theorem init_eq_core_of_some (env : Env) (rng : Rng) (a : InitArgs) (m sd : ℚ)
    (hm : a.mean = some m) (hs : a.std = some sd) :
    init env rng a = initCore env rng a := by
  simp only [init]
  cases hC : initCore env rng a with
  | error e => rfl
  | ok ds =>
    obtain ⟨r, -, -, -, -, hdm, hds, -⟩ := initCore_ok_inv env rng a ds hC
    rw [bind_ok_ex, if_neg (by simp [hdm, hds, hm, hs])]
    rfl

theorem init_ok_isSome (env : Env) (rng : Rng) (a : InitArgs) (ds : Dataset)
    (h : init env rng a = .ok ds) : ds.mean.isSome ∧ ds.std.isSome := by
  simp only [init] at h
  obtain ⟨ds0, hc, h⟩ := bind_ok_inv h
  by_cases hm : ds0.mean.isNone || ds0.std.isNone
  · rw [if_pos hm] at h
    obtain ⟨ms, -, h⟩ := bind_ok_inv h
    have h2 : Except.ok { ds0 with mean := some ms.1, std := some ms.2 }
        = Except.ok ds := h
    injection h2 with h2
    subst h2
    simp
  · rw [if_neg hm] at h
    have h2 : Except.ok ds0 = Except.ok ds := h
    injection h2 with h2
    rw [← h2]
    simp only [Bool.or_eq_true, not_or, Bool.not_eq_true] at hm
    constructor
    · cases e : ds0.mean with
      | none => rw [e] at hm; simp at hm
      | some v => simp
    · cases e : ds0.std with
      | none => rw [e] at hm; simp at hm
      | some v => simp

theorem init_ok_aux (env : Env) (rng : Rng) (a : InitArgs) (ds : Dataset)
    (h : init env rng a = .ok ds) :
    ∃ r, initAux env rng.choice a.tomo_paths_odd a.tomo_paths_even a.mask_paths
        a.extraction_shapes a.sample_shape a.n_samples_per_tomo = .ok r ∧
      ds.coords = r.2.2 ∧ ds.n_samples_per_tomo = a.n_samples_per_tomo ∧
      ds.tomo_paths_odd = a.tomo_paths_odd ∧
      ds.tomo_paths_even = a.tomo_paths_even ∧
      ds.extraction_shapes = a.extraction_shapes ∧
      ds.sample_shape = a.sample_shape ∧ ds.shuffle = a.shuffle := by
  simp only [init] at h
  obtain ⟨ds0, hc, h⟩ := bind_ok_inv h
  obtain ⟨r, hr, hco, -, -, -, -, hn, hpo, hpe, hes, hsh, hshu, -, -⟩ :=
    initCore_ok_inv env rng a ds0 hc
  by_cases hm : ds0.mean.isNone || ds0.std.isNone
  · rw [if_pos hm] at h
    obtain ⟨ms, -, h⟩ := bind_ok_inv h
    have h2 : Except.ok { ds0 with mean := some ms.1, std := some ms.2 }
        = Except.ok ds := h
    injection h2 with h2
    subst h2
    exact ⟨r, hr, hco, hn, hpo, hpe, hes, hsh, hshu⟩
  · rw [if_neg hm] at h
    have h2 : Except.ok ds0 = Except.ok ds := h
    injection h2 with h2
    subst h2
    exact ⟨r, hr, hco, hn, hpo, hpe, hes, hsh, hshu⟩

theorem validInds_length_mono (s : Shape3) (y x : ℕ × ℕ) (mask : Mask) :
    (validInds s y x mask).length ≤
      (validInds s y x ⟨mask.d0, mask.d1, mask.d2, fun _ _ _ => true⟩).length := by
  simp only [validInds, List.length_flatMap]
  apply List.sum_le_sum
  intro i _
  simp only [Function.comp, List.length_flatMap]
  apply List.sum_le_sum
  intro j _
  simp only [Function.comp]
  calc (List.filterMap (fun k => if mask.val i j k then some (i, j, k) else none)
          (List.range mask.d2)).length
      ≤ (List.range mask.d2).length := List.length_filterMap_le _ _
    _ = (List.filterMap (fun k => if true then some (i, j, k) else none)
          (List.range mask.d2)).length := by
        rw [show (fun k => if true then some (i, j, k) else none)
            = some ∘ (fun k => ((i, j, k) : ℕ × ℕ × ℕ)) from rfl]
        rw [List.filterMap_eq_map, List.length_map]

theorem resolveMask_shape (env : Env) (even : Tomo) (ep : String)
    (mp : Option String) (m : Mask) (h : resolveMask env even ep mp = .ok m) :
    m.d0 = even.d0 ∧ m.d1 = even.d1 ∧ m.d2 = even.d2 := by
  cases mp with
  | none =>
    simp only [resolveMask] at h
    injection h with h
    subst h
    exact ⟨rfl, rfl, rfl⟩
  | some mp =>
    cases hm : env.mask mp with
    | none =>
      simp only [resolveMask, hm] at h
      cases h
    | some m2 =>
      simp only [resolveMask, hm] at h
      by_cases hsh : even.shape ≠ m2.shape
      · rw [if_pos hsh] at h
        cases h
      · rw [if_neg hsh] at h
        injection h with h
        subst h
        have h2 := not_not.mp hsh
        simp only [Tomo.shape, Mask.shape, Prod.mk.injEq] at h2
        exact ⟨h2.1.symm, h2.2.1.symm, h2.2.2.symm⟩

theorem crc_none_ok (s : Shape3) (y x : ℕ × ℕ) (mask : Mask) (n : ℕ)
    (rng rng2 : ℕ → ℕ) (c : List (ℕ × ℕ))
    (h : create_random_coords s y x mask n rng = .ok c) :
    ∃ c2, create_random_coords s y x ⟨mask.d0, mask.d1, mask.d2, fun _ _ _ => true⟩
      n rng2 = .ok c2 := by
  simp only [create_random_coords] at h ⊢
  by_cases hg : (validInds s y x mask).length = 0 ∧ 0 < n
  · rw [if_pos hg] at h
    cases h
  · have hgt : ¬((validInds s y x
        ⟨mask.d0, mask.d1, mask.d2, fun _ _ _ => true⟩).length = 0 ∧ 0 < n) := by
      rintro ⟨hz, hn⟩
      apply hg
      refine ⟨?_, hn⟩
      have := validInds_length_mono s y x mask
      omega
    rw [if_neg hgt]
    exact ⟨_, rfl⟩

theorem cc4t_none_ok (env : Env) (s : Shape3) (rng rng2 : ℕ → ℕ) (n : ℕ)
    (ep op : String) (es : Window) (mp : Option String) (c : List (ℕ × ℕ))
    (h : create_coords_for_tomo env s rng n ep op es mp = .ok c) :
    ∃ c2, create_coords_for_tomo env s rng2 n ep op es none = .ok c2 := by
  simp only [create_coords_for_tomo] at h ⊢
  obtain ⟨even, heo, h⟩ := bind_ok_inv h
  obtain ⟨oddT, hoo, h⟩ := bind_ok_inv h
  rw [heo, hoo, bind_ok_ex, bind_ok_ex]
  by_cases hsh : even.shape ≠ oddT.shape
  · rw [if_pos hsh] at h
    cases h
  · rw [if_neg hsh] at h ⊢
    obtain ⟨mask, hmk, h⟩ := bind_ok_inv h
    simp only [resolveMask, bind_ok_ex]
    by_cases h0 : ¬(2 * s.s0 < even.d0)
    · rw [if_pos h0] at h
      cases h
    · rw [if_neg h0] at h ⊢
      by_cases h1 : ¬(2 * s.s1 < even.d1)
      · rw [if_pos h1] at h
        cases h
      · rw [if_neg h1] at h ⊢
        obtain ⟨hd0, hd1, hd2⟩ := resolveMask_shape env even ep mp mask hmk
        rw [← hd0, ← hd1, ← hd2]
        exact crc_none_ok s es.y es.x mask n rng rng2 c h

theorem ccl_none_ok (env : Env) (s : Shape3) (rngC rngC2 : ℕ → ℕ → ℕ) (n : ℕ) :
    ∀ (k k2 : ℕ) (po pe : List String) (ws : List Window)
      (ms : List (Option String)) (cs : List (List (ℕ × ℕ))),
      ms.length = po.length →
      create_coordinate_lists env s rngC n k po pe ws ms = .ok cs →
      ∃ cs2, create_coordinate_lists env s rngC2 n k2 po pe ws
        (List.replicate po.length none) = .ok cs2
  | k, k2, po :: pos, pe :: pes, w :: wss, m :: mss, cs, hlen, h => by
    simp only [create_coordinate_lists] at h
    obtain ⟨c, hc, h⟩ := bind_ok_inv h
    obtain ⟨rest, hrest, -⟩ := bind_ok_inv h
    obtain ⟨c2, hc2⟩ := cc4t_none_ok env s (rngC k) (rngC2 k2) n pe po w m c hc
    obtain ⟨cs2, hcs2⟩ := ccl_none_ok env s rngC rngC2 n (k + 1) (k2 + 1) pos pes
      wss mss rest (by simpa using hlen) hrest
    refine ⟨c2 :: cs2, ?_⟩
    simp only [List.length_cons, List.replicate_succ, create_coordinate_lists,
      hc2, bind_ok_ex, hcs2]
    rfl
  | k, k2, po :: pos, pe :: pes, w :: wss, [], cs, hlen, h => by
    simp at hlen
  | _, _, [], _, _, _, cs, _, _ => ⟨[], rfl⟩
  | _, _, _ :: _, [], _, _, cs, _, _ => by
    refine ⟨[], ?_⟩
    simp [List.replicate_succ, create_coordinate_lists]
    rfl
  | _, _, _ :: _, _ :: _, [], _, cs, _, _ => by
    refine ⟨[], ?_⟩
    simp [List.replicate_succ, create_coordinate_lists]
    rfl

theorem initAux_none_ok (env : Env) (rngC rngC2 : ℕ → ℕ → ℕ) (po pe : List String)
    (mps : Option (List (Option String))) (es : List Window) (s : Shape3) (n : ℕ)
    (r : List Tomo × List Tomo × List (List (ℕ × ℕ)))
    (hm : (mps.getD (List.replicate po.length none)).length = po.length)
    (h : initAux env rngC po pe mps es s n = .ok r) :
    ∃ r2, initAux env rngC2 po pe none es s n = .ok r2 := by
  obtain ⟨hto, hte, hccl⟩ := initAux_ok_spec env rngC po pe mps es s n r h
  obtain ⟨cs2, hcs2⟩ := ccl_none_ok env s rngC rngC2 n 0 0 po pe es
    (mps.getD (List.replicate po.length none)) r.2.2 hm hccl
  refine ⟨(r.1, r.2.1, cs2), ?_⟩
  simp only [initAux, hto, hte, bind_ok_ex, Option.getD_none, hcs2]
  rfl

theorem initCore_ok_of_aux (env : Env) (rng : Rng) (a : InitArgs)
    (r : List Tomo × List Tomo × List (List (ℕ × ℕ)))
    (h : initAux env rng.choice a.tomo_paths_odd a.tomo_paths_even a.mask_paths
      a.extraction_shapes a.sample_shape a.n_samples_per_tomo = .ok r) :
    ∃ ds, initCore env rng a = .ok ds := by
  apply Exists.intro
  unfold initCore
  rw [h]
  rfl

/-- C1: for every successfully constructed dataset whose mask-path list (when
present) has one entry per volume, `save` followed by `load` succeeds and
reproduces the coordinate sets, mean, std and per-volume sample count
exactly; the coordinate sets are restored verbatim — the fresh resampling
performed by the constructor inside `load` is overwritten with the persisted
coordinates. -/
theorem save_load_roundtrip_preserves_state (env : Env) (rng rng2 : Rng)
    (a : InitArgs) (ds : Dataset)
    (hmask : (a.mask_paths.getD
        (List.replicate a.tomo_paths_odd.length none)).length
      = a.tomo_paths_odd.length)
    (h : init env rng a = .ok ds) :
    ∃ ds2, load env rng2 (save ds) = .ok ds2 ∧
      ds2.coords = ds.coords ∧ ds2.mean = ds.mean ∧ ds2.std = ds.std ∧
      ds2.n_samples_per_tomo = ds.n_samples_per_tomo := by
  obtain ⟨r, hr, hco, hn, hpo, hpe, hes, hsam, hshu⟩ := init_ok_aux env rng a ds h
  obtain ⟨hsm, hss⟩ := init_ok_isSome env rng a ds h
  obtain ⟨m, hm⟩ := Option.isSome_iff_exists.mp hsm
  obtain ⟨sd, hsd⟩ := Option.isSome_iff_exists.mp hss
  obtain ⟨r2, hr2⟩ := initAux_none_ok env rng.choice rng2.choice a.tomo_paths_odd
    a.tomo_paths_even a.mask_paths a.extraction_shapes a.sample_shape
    a.n_samples_per_tomo r hmask hr
  have hauxeq : initAux env rng2.choice ds.tomo_paths_odd ds.tomo_paths_even none
      ds.extraction_shapes ds.sample_shape ds.n_samples_per_tomo = .ok r2 := by
    rw [hpo, hpe, hes, hsam, hn]
    exact hr2
  have hcore2 : ∃ ds2', initCore env rng2
      { tomo_paths_odd := ds.tomo_paths_odd
        tomo_paths_even := ds.tomo_paths_even
        mask_paths := none
        n_samples_per_tomo := ds.n_samples_per_tomo
        extraction_shapes := ds.extraction_shapes
        mean := ds.mean
        std := ds.std
        sample_shape := ds.sample_shape
        shuffle := ds.shuffle
        n_normalization_samples := 500
        tilt_axis := none } = .ok ds2' := by
    apply Exists.intro
    unfold initCore
    dsimp only
    rw [hauxeq]
    rfl
  obtain ⟨ds2', hds2'⟩ := hcore2
  obtain ⟨-, -, -, -, -, hm2, hs2, hn2, -, -, -, -, -, -, -⟩ :=
    initCore_ok_inv env rng2 _ ds2' hds2'
  have hinit2 : init env rng2
      { tomo_paths_odd := ds.tomo_paths_odd
        tomo_paths_even := ds.tomo_paths_even
        mask_paths := none
        n_samples_per_tomo := ds.n_samples_per_tomo
        extraction_shapes := ds.extraction_shapes
        mean := ds.mean
        std := ds.std
        sample_shape := ds.sample_shape
        shuffle := ds.shuffle
        n_normalization_samples := 500
        tilt_axis := none } = .ok ds2' := by
    rw [init_eq_core_of_some env rng2 _ m sd hm hsd]
    exact hds2'
  refine ⟨{ ds2' with coords := ds.coords }, ?_, rfl, by simp [hm2], by simp [hs2],
    by simp [hn2]⟩
  simp only [load, save]
  rw [hinit2, bind_ok_ex]
  rfl

set_option maxRecDepth 100000 in
/-- Witness for `save_load_roundtrip_preserves_state`: the concrete dataset
`dsW` built over the 7×7×7 volume pair. -/
theorem save_load_roundtrip_witness :
    ((argsW.mask_paths.getD
        (List.replicate argsW.tomo_paths_odd.length none)).length
      = argsW.tomo_paths_odd.length) ∧
    init envW rngW argsW = Except.ok dsW ∧
    ∃ ds2, load envW rngW (save dsW) = Except.ok ds2 ∧
      ds2.coords = dsW.coords ∧ ds2.mean = dsW.mean ∧ ds2.std = dsW.std ∧
      ds2.n_samples_per_tomo = dsW.n_samples_per_tomo :=
  ⟨rfl, rfl, save_load_roundtrip_preserves_state envW rngW rngW argsW dsW rfl rfl⟩

theorem sum_map_length_const {α : Type} (n : ℕ) :
    ∀ (cs : List (List α)), (∀ c ∈ cs, c.length = n) →
      (cs.map List.length).sum = cs.length * n
  | [], _ => by simp
  | c :: cs, h => by
    simp only [List.map_cons, List.sum_cons, List.length_cons]
    rw [h c (List.mem_cons_self _ _),
      sum_map_length_const n cs (fun d hd => h d (List.mem_cons_of_mem _ hd))]
    ring

theorem mapM_range_error {β : Type} (f : ℕ → Except String β) (e : String) :
    ∀ (start len L : ℕ), start ≤ L → L < start + len →
      (∀ i, start ≤ i → i < L → ∃ v, f i = .ok v) → f L = .error e →
      (List.range' start len).mapM f = .error e
  | _, 0, _, h1, h2, _, _ => by omega
  | start, len + 1, L, h1, h2, hok, he => by
    rw [List.range'_succ]
    simp only [List.mapM_cons]
    by_cases hs : start = L
    · subst hs
      rw [he]
      rfl
    · obtain ⟨v, hv⟩ := hok start (le_refl _) (by omega)
      rw [hv, bind_ok_ex]
      rw [mapM_range_error f e (start + 1) len L (by omega) (by omega)
        (fun i hi1 hi2 => hok i (by omega) hi2) he]
      rfl

theorem getitem_ok_of_lt (coin : Bool) (ds : Dataset) (i : ℕ)
    (hpos : 0 < ds.n_samples_per_tomo)
    (hrows : ∀ c ∈ ds.coords, c.length = ds.n_samples_per_tomo)
    (hto : ds.coords.length ≤ ds.tomos_odd.length)
    (hte : ds.coords.length ≤ ds.tomos_even.length)
    (hi : i < ds.coords.length * ds.n_samples_per_tomo) :
    ∃ pr, getitem coin ds i = .ok pr := by
  have hti : i / ds.n_samples_per_tomo < ds.coords.length :=
    Nat.div_lt_of_lt_mul (by rwa [Nat.mul_comm] at hi)
  obtain ⟨cs, hc⟩ : ∃ cs, ds.coords.get? (i / ds.n_samples_per_tomo) = some cs := by
    cases hx : ds.coords.get? (i / ds.n_samples_per_tomo) with
    | none =>
      have := List.get?_eq_none.mp hx
      omega
    | some cs => exact ⟨cs, rfl⟩
  obtain ⟨yx, hcc⟩ : ∃ yx, cs.get? (i % ds.n_samples_per_tomo) = some yx := by
    cases hx : cs.get? (i % ds.n_samples_per_tomo) with
    | none =>
      have h1 := List.get?_eq_none.mp hx
      have h2 := hrows cs (List.get?_mem hc)
      have h3 := Nat.mod_lt i hpos
      omega
    | some yx => exact ⟨yx, rfl⟩
  obtain ⟨te, hte2⟩ : ∃ te, ds.tomos_even.get? (i / ds.n_samples_per_tomo) = some te := by
    cases hx : ds.tomos_even.get? (i / ds.n_samples_per_tomo) with
    | none =>
      have := List.get?_eq_none.mp hx
      omega
    | some te => exact ⟨te, rfl⟩
  obtain ⟨tod, hto2⟩ : ∃ tod, ds.tomos_odd.get? (i / ds.n_samples_per_tomo) = some tod := by
    cases hx : ds.tomos_odd.get? (i / ds.n_samples_per_tomo) with
    | none =>
      have := List.get?_eq_none.mp hx
      omega
    | some tod => exact ⟨tod, rfl⟩
  refine ⟨augment coin (extractPatch te yx.1 yx.2 ds.sample_shape)
    (extractPatch tod yx.1 yx.2 ds.sample_shape), ?_⟩
  simp only [getitem]
  rw [if_neg (by omega), hc]
  dsimp only
  rw [hcc]
  dsimp only
  rw [hte2, hto2]

theorem getitem_err_past_end (coin : Bool) (ds : Dataset) (i : ℕ)
    (hpos : 0 < ds.n_samples_per_tomo)
    (hi : ds.coords.length ≤ i / ds.n_samples_per_tomo) :
    getitem coin ds i = .error "list index out of range" := by
  simp only [getitem]
  rw [if_neg (by omega), List.get?_eq_none.mpr hi]

theorem compute_mean_std_error (rng : Rng) (ds : Dataset) (nn : ℕ)
    (hpos : 0 < ds.n_samples_per_tomo)
    (hrows : ∀ c ∈ ds.coords, c.length = ds.n_samples_per_tomo)
    (hto : ds.coords.length ≤ ds.tomos_odd.length)
    (hte : ds.coords.length ≤ ds.tomos_even.length)
    (hlen : ds.length = ds.coords.length * ds.n_samples_per_tomo)
    (hover : ds.length < nn) :
    compute_mean_std rng ds nn = .error "list index out of range" := by
  simp only [compute_mean_std]
  rw [List.range_eq_range']
  rw [mapM_range_error (fun i => do
      let pr ← getitem (rng.coin i) ds i
      pure pr.1) "list index out of range" 0 nn ds.length (Nat.zero_le _)
    (by omega)
    (fun i _ hi => by
      obtain ⟨pr, hpr⟩ := getitem_ok_of_lt (rng.coin i) ds i hpos hrows hto hte
        (by omega)
      exact ⟨pr.1, by dsimp only; rw [hpr]; rfl⟩)
    (by
      dsimp only
      rw [getitem_err_past_end (rng.coin ds.length) ds ds.length hpos
        (by rw [hlen, Nat.mul_div_cancel _ hpos])]
      rfl)]
  rfl

/-- C10: when `mean`/`std` are not supplied and the normalization budget
exceeds the dataset's total length, construction fails with the out-of-range
index error raised inside `compute_mean_std` (the sequential index
`length` maps to a volume index with no coordinate set) instead of
computing statistics from the available patches. -/
theorem normalization_budget_overrun_fails (env : Env) (rng : Rng)
    (a : InitArgs) (ds0 : Dataset)
    (hmean : a.mean = none ∨ a.std = none)
    (hpos : 0 < a.n_samples_per_tomo)
    (hcore : initCore env rng a = .ok ds0)
    (hover : ds0.length < a.n_normalization_samples) :
    init env rng a = .error "list index out of range" := by
  obtain ⟨r, hr, hco, hodd, heven, hdm, hds, hn, -, -, -, -, -, -, hlen⟩ :=
    initCore_ok_inv env rng a ds0 hcore
  obtain ⟨hopo, hope, hccl⟩ := initAux_ok_spec env rng.choice a.tomo_paths_odd
    a.tomo_paths_even a.mask_paths a.extraction_shapes a.sample_shape
    a.n_samples_per_tomo r hr
  obtain ⟨hrows, hb1, hb2⟩ := ccl_ok_spec env a.sample_shape rng.choice
    a.n_samples_per_tomo 0 a.tomo_paths_odd a.tomo_paths_even
    a.extraction_shapes _ r.2.2 hccl
  have hol := openAll_ok_length env a.tomo_paths_odd r.1 hopo
  have hel := openAll_ok_length env a.tomo_paths_even r.2.1 hope
  have hcms : compute_mean_std rng ds0 a.n_normalization_samples
      = .error "list index out of range" := by
    apply compute_mean_std_error
    · omega
    · intro c hc
      rw [hco] at hc
      rw [hn]
      exact hrows c hc
    · rw [hco, hodd]
      omega
    · rw [hco, heven]
      omega
    · rw [hlen, hco, hn]
      exact sum_map_length_const _ _ hrows
    · omega
  simp only [init, hcore, bind_ok_ex]
  rw [if_pos (by rcases hmean with hx | hx <;> simp [hdm, hds, hx]), hcms]
  rfl

set_option maxRecDepth 100000 in
/-- Witness for `normalization_budget_overrun_fails`: the 7×7×7 pair, two
samples total, normalization budget 3. -/
theorem normalization_budget_overrun_witness :
    (argsOver.mean = none ∨ argsOver.std = none) ∧
    0 < argsOver.n_samples_per_tomo ∧
    initCore envW rngW argsOver = Except.ok dsOver ∧
    dsOver.length < argsOver.n_normalization_samples ∧
    init envW rngW argsOver = Except.error "list index out of range" :=
  ⟨Or.inl rfl, by decide, rfl, by decide,
    normalization_budget_overrun_fails envW rngW argsOver dsOver (Or.inl rfl)
      (by decide) rfl (by decide)⟩

theorem init_ok_tilt (env : Env) (rng : Rng) (a : InitArgs) (ds : Dataset)
    (h : init env rng a = .ok ds) : ds.tilt_axis = a.tilt_axis := by
  simp only [init] at h
  obtain ⟨ds0, hc, h⟩ := bind_ok_inv h
  obtain ⟨-, -, -, -, -, -, -, -, -, -, -, -, -, ht, -⟩ :=
    initCore_ok_inv env rng a ds0 hc
  by_cases hm : ds0.mean.isNone || ds0.std.isNone
  · rw [if_pos hm] at h
    obtain ⟨ms, -, h⟩ := bind_ok_inv h
    have h2 : Except.ok { ds0 with mean := some ms.1, std := some ms.2 }
        = Except.ok ds := h
    injection h2 with h2
    rw [← h2]
    exact ht
  · rw [if_neg hm] at h
    have h2 : Except.ok ds0 = Except.ok ds := h
    injection h2 with h2
    rw [← h2]
    exact ht

theorem init_ok_mean_eq (env : Env) (rng : Rng) (a : InitArgs) (ds : Dataset)
    (m sd : ℚ) (hm : a.mean = some m) (hs : a.std = some sd)
    (h : init env rng a = .ok ds) : ds.mean = some m ∧ ds.std = some sd := by
  rw [init_eq_core_of_some env rng a m sd hm hs] at h
  obtain ⟨-, -, -, -, -, hdm, hds, -, -, -, -, -, -, -, -⟩ :=
    initCore_ok_inv env rng a ds h
  rw [hdm, hds]
  exact ⟨hm, hs⟩

theorem load_preserves_stats (env : Env) (rng : Rng) (st : SavedState)
    (ds2 : Dataset) (m sd : ℚ) (hm : st.mean = some m) (hs : st.std = some sd)
    (h : load env rng st = .ok ds2) :
    ds2.mean = some m ∧ ds2.std = some sd := by
  simp only [load] at h
  obtain ⟨ds', hd, h⟩ := bind_ok_inv h
  have h2 : Except.ok { ds' with coords := st.coords } = Except.ok ds2 := h
  injection h2 with h2
  have h3 := init_ok_mean_eq env rng _ ds' m sd (by simpa using hm)
    (by simpa using hs) hd
  rw [← h2]
  simpa using h3

theorem setup_ok_inv (env : Env) (rngT rngV : Rng)
    (tomo_paths_odd tomo_paths_even : List String)
    (mps : Option (List (Option String))) (n : ℕ) (vf : ℚ) (s : Shape3)
    (ax : Axis) (nn : ℕ) (t v : Dataset)
    (h : setup env rngT rngV tomo_paths_odd tomo_paths_even mps n vf s ax nn
      = .ok (t, v)) :
    ∃ shapes,
      ((tomo_paths_even.zip tomo_paths_odd).mapM fun eo =>
        compute_extraction_shapes env eo.1 eo.2 ax.index s vf) = .ok shapes ∧
      init env rngT
        { tomo_paths_odd := tomo_paths_odd
          tomo_paths_even := tomo_paths_even
          mask_paths := mps
          n_samples_per_tomo := trainCount n vf
          extraction_shapes := shapes.map Prod.fst
          mean := none
          std := none
          sample_shape := s
          shuffle := true
          n_normalization_samples := nn
          tilt_axis := some ax } = .ok t ∧
      init env rngV
        { tomo_paths_odd := tomo_paths_odd
          tomo_paths_even := tomo_paths_even
          mask_paths := mps
          n_samples_per_tomo := valCount n vf
          extraction_shapes := shapes.map Prod.snd
          mean := t.mean
          std := t.std
          sample_shape := s
          shuffle := false
          n_normalization_samples := 500
          tilt_axis := none } = .ok v := by
  simp only [setup] at h
  obtain ⟨shapes, hs, h⟩ := bind_ok_inv h
  obtain ⟨t2, ht, h⟩ := bind_ok_inv h
  obtain ⟨v2, hv, h⟩ := bind_ok_inv h
  have h2 : Except.ok (t2, v2) = Except.ok (t, v) := h
  injection h2 with h2
  have h3 : t2 = t := congrArg Prod.fst h2
  have h4 : v2 = v := congrArg Prod.snd h2
  subst h3
  subst h4
  exact ⟨shapes, hs, ht, hv⟩

/-- C5: after `setup` the validation dataset's mean and std equal the
training dataset's — they are passed in from the freshly estimated training
statistics, so the validation constructor's own estimation branch is
skipped (never estimated independently) — and the equality persists across
a save/load round trip of both datasets. -/
theorem val_stats_equal_train_stats (env : Env) (rngT rngV rng2 rng3 : Rng)
    (po pe : List String) (mps : Option (List (Option String))) (n : ℕ)
    (vf : ℚ) (s : Shape3) (ax : Axis) (nn : ℕ) (t v t2 v2 : Dataset)
    (h : setup env rngT rngV po pe mps n vf s ax nn = .ok (t, v))
    (ht2 : load env rng2 (save t) = .ok t2)
    (hv2 : load env rng3 (save v) = .ok v2) :
    v.mean = t.mean ∧ v.std = t.std ∧ t.mean.isSome ∧ t.std.isSome ∧
    t2.mean = t.mean ∧ t2.std = t.std ∧ v2.mean = v.mean ∧ v2.std = v.std := by
  obtain ⟨shapes, -, ht, hv⟩ :=
    setup_ok_inv env rngT rngV po pe mps n vf s ax nn t v h
  obtain ⟨hsm, hss⟩ := init_ok_isSome env rngT _ t ht
  obtain ⟨m, hm⟩ := Option.isSome_iff_exists.mp hsm
  obtain ⟨sd, hsd⟩ := Option.isSome_iff_exists.mp hss
  obtain ⟨hvm, hvs⟩ := init_ok_mean_eq env rngV _ v m sd (by simpa using hm)
    (by simpa using hsd) hv
  obtain ⟨htm2, hts2⟩ := load_preserves_stats env rng2 (save t) t2 m sd
    (by simpa [save] using hm) (by simpa [save] using hsd) ht2
  obtain ⟨hvm2, hvs2⟩ := load_preserves_stats env rng3 (save v) v2 m sd
    (by simpa [save] using hvm) (by simpa [save] using hvs) hv2
  exact ⟨by rw [hvm, hm], by rw [hvs, hsd], hsm, hss, by rw [htm2, hm],
    by rw [hts2, hsd], by rw [hvm2, hvm], by rw [hvs2, hvs]⟩

/-- C9: whatever split axis is passed to `setup`, the validation dataset is
constructed with `tilt_axis=None`, so its persisted archive records an
absent split axis, while the training dataset and its archive record the
axis given to `setup`. -/
theorem val_dataset_tilt_axis_none (env : Env) (rngT rngV : Rng)
    (po pe : List String) (mps : Option (List (Option String))) (n : ℕ)
    (vf : ℚ) (s : Shape3) (ax : Axis) (nn : ℕ) (t v : Dataset)
    (h : setup env rngT rngV po pe mps n vf s ax nn = .ok (t, v)) :
    v.tilt_axis = none ∧ (save v).tilt_axis = none ∧
    t.tilt_axis = some ax ∧ (save t).tilt_axis = some ax := by
  obtain ⟨shapes, -, ht, hv⟩ :=
    setup_ok_inv env rngT rngV po pe mps n vf s ax nn t v h
  have h1 := init_ok_tilt env rngV _ v hv
  have h2 := init_ok_tilt env rngT _ t ht
  exact ⟨by simpa using h1, by simpa [save] using h1, by simpa using h2,
    by simpa [save] using h2⟩

theorem setup_single_ok (env : Env) (rngT rngV : Rng) (po pe : String)
    (mps : Option (List (Option String))) (n : ℕ) (vf : ℚ) (s : Shape3)
    (ax : Axis) (nn : ℕ) (wt wv : Window) (t v : Dataset)
    (hw : compute_extraction_shapes env pe po ax.index s vf = .ok (wt, wv))
    (ht : init env rngT
      { tomo_paths_odd := [po]
        tomo_paths_even := [pe]
        mask_paths := mps
        n_samples_per_tomo := trainCount n vf
        extraction_shapes := [wt]
        mean := none
        std := none
        sample_shape := s
        shuffle := true
        n_normalization_samples := nn
        tilt_axis := some ax } = .ok t)
    (hv : init env rngV
      { tomo_paths_odd := [po]
        tomo_paths_even := [pe]
        mask_paths := mps
        n_samples_per_tomo := valCount n vf
        extraction_shapes := [wv]
        mean := t.mean
        std := t.std
        sample_shape := s
        shuffle := false
        n_normalization_samples := 500
        tilt_axis := none } = .ok v) :
    setup env rngT rngV [po] [pe] mps n vf s ax nn = .ok (t, v) := by
  simp only [setup, List.zip_cons_cons, List.zip_nil_right, List.mapM_cons,
    List.mapM_nil]
  rw [hw, bind_ok_ex]
  simp only [pure_bind, bind_ok_ex, List.map_cons, List.map_nil]
  rw [ht, bind_ok_ex, hv, bind_ok_ex]
  rfl

/-- Evaluation of `setup` over the 7×7×7 pair with 10 samples per volume
and validation fraction 1/4: the training dataset receives
`int(10 * 0.75) = 7` samples and the validation dataset `int(10 * 0.25) = 2`. -/
theorem setup10_eval :
    setup envW rngW rngW ["odd.mrc"] ["even.mrc"] none 10 (1 / 4) ⟨2, 2, 2⟩
      Axis.Y 1 = .ok (dsTrain10, dsVal10) := by
  have h7 : trainCount 10 (1 / 4) = 7 := by
    unfold trainCount
    rw [show pyInt (((10 : ℕ) : ℚ) * (1 - 1 / 4)) = 7 from by norm_num [pyInt]]
    rfl
  have h2 : valCount 10 (1 / 4) = 2 := by
    unfold valCount
    rw [show pyInt (((10 : ℕ) : ℚ) * (1 / 4)) = 2 from by norm_num [pyInt]]
    rfl
  apply setup_single_ok envW rngW rngW "odd.mrc" "even.mrc" none 10 (1 / 4)
    ⟨2, 2, 2⟩ .Y 1 ⟨(0, 4), (0, 7)⟩ ⟨(4, 7), (0, 7)⟩ dsTrain10 dsVal10
  · simp only [Axis.index]
    rw [ces_Y_eval envW "even.mrc" "odd.mrc" tomoW ⟨2, 2, 2⟩ (1 / 4) rfl rfl
      (by decide) (by decide)]
    norm_num [tomoW, val_cut_off, pyInt]
    decide
  · rw [h7]
    rfl
  · rw [h2]
    rfl

/-- C8 counterexample: with `total_samples_per_tomo = 10` and
`validation_fraction = 1/4`, `setup` gives the training dataset
`int(10 * 0.75) = 7` samples per volume, whereas the claim's
`round(10 * 0.75) = round(7.5) = 8` (8 under round-half-up and under
Python's round-half-to-even alike). -/
theorem setup_counts_truncate_not_round_counterexample :
    setup envW rngW rngW ["odd.mrc"] ["even.mrc"] none 10 (1 / 4) ⟨2, 2, 2⟩
        Axis.Y 1 = .ok (dsTrain10, dsVal10) ∧
    dsTrain10.n_samples_per_tomo = 7 ∧
    specRound ((10 : ℚ) * (1 - 1 / 4)) = 8 ∧ (7 : ℕ) ≠ 8 :=
  ⟨setup10_eval, rfl, by norm_num [specRound], by decide⟩

/-- C8 (amended): `setup` computes the per-volume sample counts with Python
`int()` truncation — `floor` on these nonnegative products — namely
`int(total * (1 - vf))` for training and `int(total * vf)` for validation,
not with rounding to nearest; for `0 ≤ vf ≤ 1` the two counts sum to
`total` or `total - 1`. -/
theorem setup_counts_are_truncations (env : Env) (rngT rngV : Rng)
    (po pe : List String) (mps : Option (List (Option String))) (n : ℕ)
    (vf : ℚ) (s : Shape3) (ax : Axis) (nn : ℕ) (t v : Dataset)
    (h : setup env rngT rngV po pe mps n vf s ax nn = .ok (t, v))
    (h0 : 0 ≤ vf) (h1 : vf ≤ 1) :
    t.n_samples_per_tomo = (⌊(n : ℚ) * (1 - vf)⌋).toNat ∧
    v.n_samples_per_tomo = (⌊(n : ℚ) * vf⌋).toNat ∧
    (t.n_samples_per_tomo + v.n_samples_per_tomo = n ∨
     t.n_samples_per_tomo + v.n_samples_per_tomo + 1 = n) := by
  obtain ⟨shapes, -, ht, hv⟩ :=
    setup_ok_inv env rngT rngV po pe mps n vf s ax nn t v h
  obtain ⟨-, -, -, htn, -, -, -, -, -⟩ := init_ok_aux env rngT _ t ht
  obtain ⟨-, -, -, hvn, -, -, -, -, -⟩ := init_ok_aux env rngV _ v hv
  have hq1 : (0 : ℚ) ≤ (n : ℚ) * (1 - vf) :=
    mul_nonneg (Nat.cast_nonneg n) (by linarith)
  have hq2 : (0 : ℚ) ≤ (n : ℚ) * vf := mul_nonneg (Nat.cast_nonneg n) h0
  have e1 : t.n_samples_per_tomo = (⌊(n : ℚ) * (1 - vf)⌋).toNat := by
    rw [htn]
    show trainCount n vf = _
    unfold trainCount pyInt
    rw [if_pos hq1]
  have e2 : v.n_samples_per_tomo = (⌊(n : ℚ) * vf⌋).toNat := by
    rw [hvn]
    show valCount n vf = _
    unfold valCount pyInt
    rw [if_pos hq2]
  have hfa0 : 0 ≤ ⌊(n : ℚ) * (1 - vf)⌋ := Int.floor_nonneg.mpr hq1
  have hfb0 : 0 ≤ ⌊(n : ℚ) * vf⌋ := Int.floor_nonneg.mpr hq2
  have hsum_le : ⌊(n : ℚ) * (1 - vf)⌋ + ⌊(n : ℚ) * vf⌋ ≤ (n : ℤ) := by
    have hcast : ((⌊(n : ℚ) * (1 - vf)⌋ + ⌊(n : ℚ) * vf⌋ : ℤ) : ℚ)
        ≤ (((n : ℤ) : ℚ)) := by
      push_cast
      calc (⌊(n : ℚ) * (1 - vf)⌋ : ℚ) + (⌊(n : ℚ) * vf⌋ : ℚ)
          ≤ (n : ℚ) * (1 - vf) + (n : ℚ) * vf :=
            add_le_add (Int.floor_le _) (Int.floor_le _)
        _ = (n : ℚ) := by ring
    exact_mod_cast hcast
  have hsum_gt : (n : ℤ) - 2 < ⌊(n : ℚ) * (1 - vf)⌋ + ⌊(n : ℚ) * vf⌋ := by
    have hx1 : (n : ℚ) * (1 - vf) < ⌊(n : ℚ) * (1 - vf)⌋ + 1 :=
      Int.lt_floor_add_one _
    have hx2 : (n : ℚ) * vf < ⌊(n : ℚ) * vf⌋ + 1 := Int.lt_floor_add_one _
    have hsum : (n : ℚ) * (1 - vf) + (n : ℚ) * vf = (n : ℚ) := by ring
    have hcast : (((n : ℤ) : ℚ)) - 2
        < ((⌊(n : ℚ) * (1 - vf)⌋ + ⌊(n : ℚ) * vf⌋ : ℤ) : ℚ) := by
      push_cast
      linarith
    exact_mod_cast hcast
  refine ⟨e1, e2, ?_⟩
  rw [e1, e2]
  omega

/-- Witness for `setup_counts_are_truncations`: the concrete `setup` run
with 10 samples and `vf = 1/4` (counts 7 and 2, summing to 9 = 10 - 1). -/
theorem setup_counts_are_truncations_witness :
    (0 : ℚ) ≤ 1 / 4 ∧ (1 / 4 : ℚ) ≤ 1 ∧
    dsTrain10.n_samples_per_tomo = (⌊((10 : ℕ) : ℚ) * (1 - 1 / 4)⌋).toNat ∧
    dsVal10.n_samples_per_tomo = (⌊((10 : ℕ) : ℚ) * (1 / 4)⌋).toNat ∧
    (dsTrain10.n_samples_per_tomo + dsVal10.n_samples_per_tomo = 10 ∨
     dsTrain10.n_samples_per_tomo + dsVal10.n_samples_per_tomo + 1 = 10) := by
  obtain ⟨e1, e2, e3⟩ := setup_counts_are_truncations envW rngW rngW
    ["odd.mrc"] ["even.mrc"] none 10 (1 / 4) ⟨2, 2, 2⟩ .Y 1 dsTrain10 dsVal10
    setup10_eval (by norm_num) (by norm_num)
  exact ⟨by norm_num, by norm_num, e1, e2, e3⟩

/-- Witness for `val_stats_equal_train_stats`: the concrete `setup` run and
the reload of both of its datasets. -/
theorem val_stats_equal_train_stats_witness :
    setup envW rngW rngW ["odd.mrc"] ["even.mrc"] none 10 (1 / 4) ⟨2, 2, 2⟩
        Axis.Y 1 = .ok (dsTrain10, dsVal10) ∧
    load envW rngW (save dsTrain10) = .ok dsTrain10L ∧
    load envW rngW (save dsVal10) = .ok dsVal10L ∧
    (dsVal10.mean = dsTrain10.mean ∧ dsVal10.std = dsTrain10.std ∧
     dsTrain10.mean.isSome ∧ dsTrain10.std.isSome ∧
     dsTrain10L.mean = dsTrain10.mean ∧ dsTrain10L.std = dsTrain10.std ∧
     dsVal10L.mean = dsVal10.mean ∧ dsVal10L.std = dsVal10.std) :=
  ⟨setup10_eval, rfl, rfl,
    val_stats_equal_train_stats envW rngW rngW rngW rngW ["odd.mrc"]
      ["even.mrc"] none 10 (1 / 4) ⟨2, 2, 2⟩ .Y 1 dsTrain10 dsVal10 dsTrain10L
      dsVal10L setup10_eval rfl rfl⟩

/-- Witness for `val_dataset_tilt_axis_none`: the concrete `setup` run with
split axis `Y`. -/
theorem val_dataset_tilt_axis_none_witness :
    setup envW rngW rngW ["odd.mrc"] ["even.mrc"] none 10 (1 / 4) ⟨2, 2, 2⟩
        Axis.Y 1 = .ok (dsTrain10, dsVal10) ∧
    (dsVal10.tilt_axis = none ∧ (save dsVal10).tilt_axis = none ∧
     dsTrain10.tilt_axis = some Axis.Y ∧
     (save dsTrain10).tilt_axis = some Axis.Y) :=
  ⟨setup10_eval,
    val_dataset_tilt_axis_none envW rngW rngW ["odd.mrc"] ["even.mrc"] none 10
      (1 / 4) ⟨2, 2, 2⟩ .Y 1 dsTrain10 dsVal10 setup10_eval⟩
